import Mathlib

/-!
# SMTFE: the railroad game loop, the level click handler and the snowball update phase

A shallow embedding of

* `static/scenes/railroad/js/game.js`  (class `Game`),
* `static/scenes/railroad/js/level.js` (class `Level`),
* `src/snowball-game.js`               (class `SnowballGame`).

Conventions of the embedding.

* JavaScript numbers are modelled by exact rationals; `Date.now() / 1000` is an
  input of every operation that reads the clock, one parameter per read.
* The scene, the systems, the scoreboard and the renderer are collaborators whose
  code is not part of these files.  Their combined state is an arbitrary type `W`
  and each of their methods is an arbitrary function on `W` that may also throw.
* Every call that leaves the controller is appended to a ghost log `calls`, in
  program order, the call that throws included.
* An operation returns the state it leaves behind together with the exception
  that escaped it, if any (`Outcome`).
-/

namespace SMTFE

/-! ## Shared vocabulary -/

/-- A `THREE.Vector3`. -/
structure Point where
  x : Rat
  y : Rat
  z : Rat
  deriving DecidableEq, Repr

/-- Identity of a scene object (a JavaScript object reference). -/
abbrev ObjId := Nat

/-- Identity of a material object (`object.material`). -/
abbrev MatId := Nat

/-- A texture value as returned by `getElfImage`. -/
abbrev Texture := Nat

/-- Identity of the promise returned by `presentSystem.shoot`. -/
abbrev Handle := Nat

/-- Calls that leave the controller, as recorded in the ghost log. -/
inductive Call where
  | sceneUpdate (deltaSeconds : Rat)
  | elvesUpdate (deltaSeconds : Rat)
  | presentUpdate (deltaSeconds : Rat)
  | scoreboardOnFrame (deltaSeconds : Rat)
  | render
  | requestAnimationFrame
  | warn (msg : String)
  | log (msg : String)
  | cast
  | shoot (point : Point)
  | getElfImage (url : String)
  | setMap (target : ObjId) (texture : Texture)
  deriving DecidableEq, Repr

/-- The `deltaSeconds` argument carried by a call of the update phase. -/
def Call.delta? : Call → Option Rat
  | .sceneUpdate d => some d
  | .elvesUpdate d => some d
  | .presentUpdate d => some d
  | .scoreboardOnFrame d => some d
  | _ => none

/-- The state an operation leaves behind and the exception that escaped it. -/
structure Outcome (σ : Type) where
  state : σ
  thrown : Option String

/-- Normal completion. -/
def Outcome.ok {σ : Type} (s : σ) : Outcome σ := ⟨s, none⟩

/-- Sequencing of statements: the rest runs only when nothing was thrown. -/
def Outcome.andThen {σ : Type} (r : Outcome σ) (k : σ → Outcome σ) : Outcome σ :=
  match r.thrown with
  | none => k r.state
  | some e => ⟨r.state, some e⟩

/-- A collaborator method: the state it leaves and the exception it throws, if any. -/
abbrev Method (W : Type) := W → W × Option String

/-! ## `static/scenes/railroad/js/game.js` -/

/-- The collaborators of the railroad `Game`. -/
structure Systems (W : Type) where
  /-- The scene, systems and scoreboard as `start` constructs them. -/
  create : W
  /-- Method `placeholderScene.update(deltaSeconds)`. -/
  sceneUpdate : Rat → Method W
  /-- Method `elvesSystem.update(deltaSeconds)`. -/
  elvesUpdate : Rat → Method W
  /-- Method `presentSystem.update(deltaSeconds)`. -/
  presentUpdate : Rat → Method W
  /-- Method `scoreboard.onFrame(deltaSeconds)`. -/
  scoreboardOnFrame : Rat → Method W
  /-- Method `renderer.render(scene, camera)`. -/
  render : Method W
  /-- Method `raycasterSystem.cast(clickEvent)`: the new state and the intersections. -/
  cast : W → W × List Point
  /-- Method `presentSystem.shoot(point)`. -/
  shoot : Point → Method W

/-- The fields of a railroad `Game` instance, the host's queue of frame callbacks
and the ghost log. -/
structure Game (W : Type) where
  /-- Field `this.paused`. -/
  paused : Bool
  /-- Field `this.previousSeconds`; `none` is JavaScript `null`. -/
  previousSeconds : Option Rat
  /-- Whether `start` has assigned `placeholderScene`, the systems and the scoreboard. -/
  started : Bool
  /-- The state of the scene, the systems, the scoreboard and the renderer. -/
  world : W
  /-- Number of `mainLoop` callbacks handed to `requestAnimationFrame` and not yet run. -/
  pending : Nat
  /-- Ghost log of the calls made so far, oldest first. -/
  calls : List Call

/-- Record a call in the log and run the collaborator method on the world. -/
def Game.invoke {W : Type} (c : Call) (f : Method W) (g : Game W) : Outcome (Game W) :=
  ⟨{ g with world := (f g.world).1, calls := g.calls ++ [c] }, (f g.world).2⟩

/-- Record a call that has no effect on the modelled world (`console.warn`,
`console.log`). -/
def Game.note {W : Type} (c : Call) (g : Game W) : Game W :=
  { g with calls := g.calls ++ [c] }

/-- The constructor: lines 16-19.  `world0` is whatever the collaborators are
before `start`; no field refers to them yet. -/
def Game.construct {W : Type} (world0 : W) (nowSeconds : Rat) : Game W :=
  { paused := false, previousSeconds := some nowSeconds, started := false,
    world := world0, pending := 0, calls := [] }

/-- Method `update()`: lines 107-116.  `nowSeconds` is `Date.now() / 1000` at line 108.
`nowSeconds - null` is `nowSeconds`, since `null` converts to `0`.  Before `start`
has assigned `placeholderScene`, line 110 throws a `TypeError`. -/
def Game.update {W : Type} (sys : Systems W) (nowSeconds : Rat) (g : Game W) :
    Outcome (Game W) :=
  let deltaSeconds := nowSeconds - g.previousSeconds.getD 0
  if g.started then
    (((g.invoke (.sceneUpdate deltaSeconds) (sys.sceneUpdate deltaSeconds)).andThen
      (Game.invoke (.elvesUpdate deltaSeconds) (sys.elvesUpdate deltaSeconds))).andThen
      (Game.invoke (.presentUpdate deltaSeconds) (sys.presentUpdate deltaSeconds))).andThen
      (Game.invoke (.scoreboardOnFrame deltaSeconds) (sys.scoreboardOnFrame deltaSeconds))
      |>.andThen fun g1 => Outcome.ok { g1 with previousSeconds := some nowSeconds }
  else
    ⟨g, some "TypeError"⟩

/-- Method `render()`: lines 100-102. -/
def Game.render {W : Type} (sys : Systems W) (g : Game W) : Outcome (Game W) :=
  if g.started then g.invoke .render sys.render else ⟨g, some "TypeError"⟩

/-- Method `mainLoop()`: lines 90-98.  `nowSeconds` is the clock as `update` reads it. -/
def Game.mainLoop {W : Type} (sys : Systems W) (nowSeconds : Rat) (g : Game W) :
    Outcome (Game W) :=
  if g.paused then
    Outcome.ok g
  else
    ((g.update sys nowSeconds).andThen (Game.render sys)).andThen fun g1 =>
      Outcome.ok { g1 with pending := g1.pending + 1,
                           calls := g1.calls ++ [.requestAnimationFrame] }

/-- Method `start(container)`, from line 43 on: what runs once both preloads have
resolved.  The part before the `await` only creates the renderer. -/
def Game.start {W : Type} (sys : Systems W) (nowSeconds : Rat) (g : Game W) :
    Outcome (Game W) :=
  Game.mainLoop sys nowSeconds { g with started := true, world := sys.create }

/-- Method `pause()`: lines 61-64. -/
def Game.pause {W : Type} (g : Game W) : Game W :=
  { g with paused := true, previousSeconds := none }

/-- Method `resume()`: lines 66-74.  `nowResume` is the clock at line 72,
`nowUpdate` the clock as the `update` of line 73's `mainLoop` reads it. -/
def Game.resume {W : Type} (sys : Systems W) (nowResume nowUpdate : Rat) (g : Game W) :
    Outcome (Game W) :=
  if !g.paused then
    Outcome.ok (g.note (.warn "Game must be paused before it can be resumed"))
  else
    Game.mainLoop sys nowUpdate { g with paused := false, previousSeconds := some nowResume }

/-- Method `restart()`: lines 76-84.  `nowUpdate` is the clock as the `update` of
line 83's `mainLoop` reads it. -/
def Game.restart {W : Type} (sys : Systems W) (nowUpdate : Rat) (g : Game W) :
    Outcome (Game W) :=
  if !g.paused then
    Outcome.ok (g.note (.warn "Game must be paused before it can be restarted"))
  else
    Game.mainLoop sys nowUpdate { (g.note (.log "TODO")) with paused := false }

/-- The host runs one callback queued by `requestAnimationFrame`: line 97's arrow
function, which calls `mainLoop`.  With an empty queue there is nothing to run. -/
def Game.frame {W : Type} (sys : Systems W) (nowSeconds : Rat) (g : Game W) :
    Outcome (Game W) :=
  if g.pending = 0 then Outcome.ok g
  else Game.mainLoop sys nowSeconds { g with pending := g.pending - 1 }

/-- Method `handleClick(clickEvent)`: lines 124-133.  The clock read at line 125 is
not used. -/
def Game.handleClick {W : Type} (sys : Systems W) (g : Game W) : Outcome (Game W) :=
  if g.started then
    let intersections := (sys.cast g.world).2
    let g1 : Game W := { g with world := (sys.cast g.world).1, calls := g.calls ++ [.cast] }
    match intersections with
    | [] => Outcome.ok g1
    | point :: _ => g1.invoke (.shoot point) (sys.shoot point)
  else
    ⟨g, some "TypeError"⟩

/-- The consecutive `mainLoop()` invocations of a list of clock readings.  Each is
a task of its own: an exception ends that task only. -/
def Game.ticks {W : Type} (sys : Systems W) : List Rat → Game W → Game W
  | [], g => g
  | t :: ts, g => Game.ticks sys ts (Game.mainLoop sys t g).state

/-- The host runs queued frame callbacks, one per clock reading. -/
def Game.frames {W : Type} (sys : Systems W) : List Rat → Game W → Game W
  | [], g => g
  | t :: ts, g => Game.frames sys ts (Game.frame sys t g).state

/-- What the host can make the railroad `Game` do, with the clock readings of the
reads of `Date.now()` it causes. -/
inductive Action where
  | start (nowSeconds : Rat)
  | pause
  | resume (nowResume nowUpdate : Rat)
  | restart (nowUpdate : Rat)
  | frame (nowSeconds : Rat)
  deriving DecidableEq, Repr

/-- The clock readings of an action, in the order they are taken. -/
def Action.readings : Action → List Rat
  | .start t => [t]
  | .pause => []
  | .resume t u => [t, u]
  | .restart t => [t]
  | .frame t => [t]

/-- One action.  Each action is a task of its own: an exception ends that task
and the instance lives on in the state the task left. -/
def Game.step {W : Type} (sys : Systems W) : Action → Game W → Game W
  | .start t, g => (Game.start sys t g).state
  | .pause, g => g.pause
  | .resume t u, g => (Game.resume sys t u g).state
  | .restart t, g => (Game.restart sys t g).state
  | .frame t, g => (Game.frame sys t g).state

/-- A sequence of actions, oldest first. -/
def Game.run {W : Type} (sys : Systems W) : List Action → Game W → Game W
  | [], g => g
  | a :: as, g => Game.run sys as (Game.step sys a g)

/-- All clock readings of a sequence of actions, in the order they are taken. -/
def readingsOf : List Action → List Rat
  | [] => []
  | a :: as => a.readings ++ readingsOf as

/-- A monotone clock: starting from the reading `t0` no reading is smaller than
the one before. -/
def MonotoneClock (t0 : Rat) (as : List Action) : Prop :=
  List.Chain (fun a b : Rat => a ≤ b) t0 (readingsOf as)

/-- Every `deltaSeconds` in a log satisfies `p`. -/
def DeltasSatisfy (p : Rat → Prop) (calls : List Call) : Prop :=
  ∀ c ∈ calls, ∀ d, c.delta? = some d → p d

/-- What a tick keeps: the flags and the queue apart, the log stays within `p`
and `previousSeconds` is the old one or the clock reading. -/
def Game.Kept {W : Type} (p : Rat → Prop) (nowSeconds : Rat) (g s : Game W) : Prop :=
  DeltasSatisfy p s.calls ∧
  (s.previousSeconds = g.previousSeconds ∨ s.previousSeconds = some nowSeconds)

/-- The invariant of the loop under a monotone clock whose latest reading is `t`:
`previousSeconds`, when it is a number, is not in the future, and no
`deltaSeconds` passed so far is negative. -/
def Game.ClockInv {W : Type} (t : Rat) (g : Game W) : Prop :=
  (∀ p, g.previousSeconds = some p → p ≤ t) ∧ DeltasSatisfy (fun d => 0 ≤ d) g.calls

/-! ## `static/scenes/railroad/js/level.js` -/

/-- The value of `userData.clickable` when it is truthy. -/
structure Clickable where
  /-- Field `clickable.type`; `none` is `undefined`. -/
  type : Option String
  deriving DecidableEq, Repr

/-- The fields of a scene object that `Level.handleClick` reads. -/
structure Object3D where
  /-- Whether `object instanceof THREE.Sprite`. -/
  isSprite : Bool
  /-- Field `userData.clickable`; `none` when it is falsy. -/
  clickable : Option Clickable
  /-- Field `userData.assetUrl`; `none` is `undefined`. -/
  assetUrl : Option String
  /-- The material object `object.material` refers to. -/
  material : MatId
  deriving DecidableEq, Repr

/-- An element of the result of `raycasterSystem.cast`. -/
structure Intersection where
  object : ObjId
  point : Point
  distance : Rat
  deriving DecidableEq, Repr

/-- A `handleClick` suspended at line 51: the promise it awaits and its
`targetObject`. -/
structure Resolution where
  handle : Handle
  target : ObjId
  deriving DecidableEq, Repr

/-- The collaborators of a `Level`. -/
structure LevelSystems (W : Type) where
  /-- Method `scene.update(deltaSeconds)`. -/
  sceneUpdate : Rat → Method W
  /-- Method `presentSystem.update(deltaSeconds)`. -/
  presentUpdate : Rat → Method W
  /-- Method `raycasterSystem.cast(clientX, clientY)`. -/
  cast : Rat → Rat → W → W × List Intersection
  /-- Method `presentSystem.shoot(point)`: the promise it returns, or what it throws. -/
  shoot : Point → W → W × Except String Handle
  /-- Function `getElfImage(url)`; `none` when it returns a falsy value. -/
  getElfImage : String → Option Texture

/-- A `Level` instance with the part of the heap its click handler reads and
writes, the continuations it has suspended, and the ghost log. -/
structure Level (W : Type) where
  /-- The state of the scene and the systems. -/
  world : W
  /-- The scene objects, by reference. -/
  objects : ObjId → Object3D
  /-- Field `material.map` of every material object. -/
  maps : MatId → Option Texture
  /-- The objects that are in the scene graph. -/
  children : List ObjId
  /-- The suspended continuations, oldest first. -/
  awaiting : List Resolution
  /-- Ghost log of the calls made so far, oldest first. -/
  calls : List Call

/-- Record a call in the log and run the collaborator method on the world. -/
def Level.invoke {W : Type} (c : Call) (f : Method W) (l : Level W) : Outcome (Level W) :=
  ⟨{ l with world := (f l.world).1, calls := l.calls ++ [c] }, (f l.world).2⟩

/-- Method `update(deltaSeconds)`: lines 35-38. -/
def Level.update {W : Type} (sys : LevelSystems W) (deltaSeconds : Rat) (l : Level W) :
    Outcome (Level W) :=
  (l.invoke (.sceneUpdate deltaSeconds) (sys.sceneUpdate deltaSeconds)).andThen
    (Level.invoke (.presentUpdate deltaSeconds) (sys.presentUpdate deltaSeconds))

/-- The result of `s.replace('@', r)` on the characters of `s`: the first `@`
is replaced, the rest is kept. -/
def replaceFirstAt (r : List Char) : List Char → List Char
  | [] => []
  | c :: cs => if c = '@' then r ++ cs else c :: replaceFirstAt r cs

/-- The argument of `getElfImage` at line 53: `assetUrl.replace('@', '_Holding@')`. -/
def holdingUrl (assetUrl : String) : String :=
  String.mk (replaceFirstAt "_Holding@".toList assetUrl.toList)

/-- The condition of lines 46-49. -/
def Object3D.isElfTarget (o : Object3D) : Bool :=
  o.isSprite &&
  (match o.clickable with
   | none => false
   | some c => c.type == some "elf") &&
  o.assetUrl.isSome

/-- Method `handleClick(clientX, clientY)` up to its `await`: lines 41-51.  When
line 51 is reached the rest of the body is suspended as a `Resolution`. -/
def Level.handleClick {W : Type} (sys : LevelSystems W) (clientX clientY : Rat)
    (l : Level W) : Outcome (Level W) :=
  let intersections := (sys.cast clientX clientY l.world).2
  let l1 : Level W :=
    { l with world := (sys.cast clientX clientY l.world).1, calls := l.calls ++ [.cast] }
  match intersections with
  | [] => Outcome.ok l1
  | hit :: _ =>
    let l2 : Level W :=
      { l1 with world := (sys.shoot hit.point l1.world).1,
                calls := l1.calls ++ [.shoot hit.point] }
    match (sys.shoot hit.point l1.world).2 with
    | .error e => ⟨l2, some e⟩
    | .ok presentLanded =>
      if (l2.objects hit.object).isElfTarget then
        Outcome.ok { l2 with awaiting := l2.awaiting ++ [⟨presentLanded, hit.object⟩] }
      else
        Outcome.ok l2

/-- The rest of `handleClick` after the `await`: lines 52-56, run when the
awaited promise is fulfilled.  `undefined.replace` throws a `TypeError`. -/
def Level.landed {W : Type} (sys : LevelSystems W) (targetObject : ObjId) (l : Level W) :
    Outcome (Level W) :=
  match (l.objects targetObject).assetUrl with
  | none => ⟨l, some "TypeError"⟩
  | some assetUrl =>
    let l1 : Level W := { l with calls := l.calls ++ [.getElfImage (holdingUrl assetUrl)] }
    match sys.getElfImage (holdingUrl assetUrl) with
    | none => Outcome.ok l1
    | some textureWithPresent =>
      Outcome.ok { l1 with
        maps := Function.update l1.maps (l1.objects targetObject).material
                  (some textureWithPresent),
        calls := l1.calls ++ [.setMap targetObject textureWithPresent] }

/-- The continuations of a list of resolutions, oldest first, each a task of its own. -/
def Level.landAll {W : Type} (sys : LevelSystems W) : List Resolution → Level W → Level W
  | [], l => l
  | r :: rs, l => Level.landAll sys rs (Level.landed sys r.target l).state

/-- The promise `h` is fulfilled: the continuations awaiting it run, in the order
they were suspended; the others stay suspended. -/
def Level.fulfil {W : Type} (sys : LevelSystems W) (h : Handle) (l : Level W) : Level W :=
  Level.landAll sys (l.awaiting.filter fun r => r.handle = h)
    { l with awaiting := l.awaiting.filter fun r => ¬ r.handle = h }

/-- Modelled from the spec: the removal of a target object from the Scene by code
outside `level.js` ("target object was removed from the Scene before fulfillment"). -/
def Level.removeFromScene {W : Type} (o : ObjId) (l : Level W) : Level W :=
  { l with children := l.children.filter fun c => ¬ c = o }

/-- Consecutive `update(deltaSeconds)` calls, one per element. -/
def Level.updates {W : Type} (sys : LevelSystems W) : List Rat → Level W → Level W
  | [], l => l
  | d :: ds, l => Level.updates sys ds (Level.update sys d l).state

/-- A click as the handler sees it. -/
structure Click where
  clientX : Rat
  clientY : Rat
  deriving DecidableEq, Repr

/-- Consecutive clicks, each handled by a `handleClick` of its own. -/
def Level.clicks {W : Type} (sys : LevelSystems W) : List Click → Level W → Level W
  | [], l => l
  | c :: cs, l => Level.clicks sys cs (Level.handleClick sys c.clientX c.clientY l).state

/-- The points of the `shoot` requests in a log, oldest first. -/
def shots : List Call → List Point
  | [] => []
  | .shoot p :: cs => p :: shots cs
  | _ :: cs => shots cs

/-- The points that a sequence of clicks is to shoot at: for each click whose
cast is not empty the point of its first intersection.  The world moves on with
every cast and every shot. -/
def expectedShots {W : Type} (sys : LevelSystems W) : List Click → W → List Point
  | [], _ => []
  | c :: cs, w =>
    match (sys.cast c.clientX c.clientY w).2 with
    | [] => expectedShots sys cs (sys.cast c.clientX c.clientY w).1
    | hit :: _ =>
      hit.point :: expectedShots sys cs (sys.shoot hit.point (sys.cast c.clientX c.clientY w).1).1

/-! ## `src/snowball-game.js` -/

/-- Calls made by `SnowballGame.update`; each system receives `this`. -/
inductive SnowCall where
  | superUpdate
  | collisionUpdate
  | snowballUpdate
  | effectUpdate
  | playerUpdate
  | dummyTargetUpdate
  deriving DecidableEq, Repr

/-- The collaborators of `SnowballGame.update`.  Each receives the game itself,
so each is a method on the whole game state `G`. -/
structure SnowballSystems (G : Type) where
  /-- Method `update()` of the base class `Game` of `engine/core/game.js`. -/
  superUpdate : Method G
  collisionUpdate : Method G
  snowballUpdate : Method G
  effectUpdate : Method G
  playerUpdate : Method G
  dummyTargetUpdate : Method G

/-- A `SnowballGame` instance and the ghost log. -/
structure SnowballGame (G : Type) where
  self : G
  calls : List SnowCall

/-- Record a call in the log and run the method on the game. -/
def SnowballGame.invoke {G : Type} (c : SnowCall) (f : Method G) (g : SnowballGame G) :
    Outcome (SnowballGame G) :=
  ⟨{ self := (f g.self).1, calls := g.calls ++ [c] }, (f g.self).2⟩

/-- Method `update()`: lines 33-41. -/
def SnowballGame.update {G : Type} (sys : SnowballSystems G) (g : SnowballGame G) :
    Outcome (SnowballGame G) :=
  (((((g.invoke .superUpdate sys.superUpdate).andThen
    (SnowballGame.invoke .collisionUpdate sys.collisionUpdate)).andThen
    (SnowballGame.invoke .snowballUpdate sys.snowballUpdate)).andThen
    (SnowballGame.invoke .effectUpdate sys.effectUpdate)).andThen
    (SnowballGame.invoke .playerUpdate sys.playerUpdate)).andThen
    (SnowballGame.invoke .dummyTargetUpdate sys.dummyTargetUpdate)

/-! ## The calls of an update phase, one by one -/

/-- The calls of lines 110-113 of the railroad `Game.update`, in source order,
each with the method it invokes. -/
def Game.phase {W : Type} (sys : Systems W) (deltaSeconds : Rat) : List (Call × Method W) :=
  [(.sceneUpdate deltaSeconds, sys.sceneUpdate deltaSeconds),
   (.elvesUpdate deltaSeconds, sys.elvesUpdate deltaSeconds),
   (.presentUpdate deltaSeconds, sys.presentUpdate deltaSeconds),
   (.scoreboardOnFrame deltaSeconds, sys.scoreboardOnFrame deltaSeconds)]

/-- The calls of lines 36-37 of `Level.update`, in source order. -/
def Level.phase {W : Type} (sys : LevelSystems W) (deltaSeconds : Rat) :
    List (Call × Method W) :=
  [(.sceneUpdate deltaSeconds, sys.sceneUpdate deltaSeconds),
   (.presentUpdate deltaSeconds, sys.presentUpdate deltaSeconds)]

/-- What call number `i` (from 0) of a phase throws when it is made on the world
that the calls before it leave; `none` when it returns or when there is no such
call. -/
def outcomeAt {W : Type} : List (Call × Method W) → W → Nat → Option String
  | [], _, _ => none
  | m :: _, w, 0 => (m.2 w).2
  | m :: ms, w, i + 1 => outcomeAt ms (m.2 w).1 i

/-- Call number `k` (from 0) of a phase is the first that throws, and throws `e`. -/
def ThrowsAt {W : Type} (ms : List (Call × Method W)) (w : W) (k : Nat) (e : String) : Prop :=
  (∀ i, i < k → outcomeAt ms w i = none) ∧ outcomeAt ms w k = some e

/-! ## The raycaster -/

/-- Modelled from the spec: an entity of the Scene as the resolver's ray cast
sees it (`RaycasterSystem` is not among the source files): the object, and for an
input point under the active camera the point and the distance from the camera at
which the ray meets the object, if it does. -/
structure Target where
  object : ObjId
  meet : Rat → Rat → Option (Point × Rat)

/-- Modelled from the spec: the result of `raycasterSystem.cast(clientX, clientY)`,
"intersections sorted by ascending distance from the camera; empty sequence if
nothing is hit", "produced fresh on every cast".  The intersections of the ray
with the entities are collected in scene order and sorted by distance. -/
def castModel (scene : List Target) (clientX clientY : Rat) : List Intersection :=
  (scene.filterMap fun t =>
      (t.meet clientX clientY).map fun pd => (⟨t.object, pd.1, pd.2⟩ : Intersection)).insertionSort
    (fun a b => a.distance ≤ b.distance)

/-! ## `static/scenes/snowbox/js/ui-components/Toolbar.js` -/

/-- The fields of a `Toolbar` that `setUnits` and `onArrowDown` read and write.
Numbers are integers: every `offsetWidth` is one, and `x` is a sum of them. -/
structure Toolbar where
  /-- The `offsetWidth` of each element of `this.ui.items`. -/
  items : List Int
  /-- The `offsetWidth` of `this.ui.slider`. -/
  sliderOffsetWidth : Int
  currentIndex : Int
  x : Int
  totalItemsWidth : Int
  sliderWidth : Int
  offsetXSlider : Int
  deriving DecidableEq, Repr

/-- The value of `this.ui.items[index].offsetWidth`; `none` when `items[index]` is
`undefined`, where reading `offsetWidth` throws a `TypeError`. -/
def Toolbar.offsetWidthAt (t : Toolbar) (index : Int) : Option Int :=
  if index < 0 then none else t.items.get? index.toNat

/-- Method `setUnits()`: lines 109-127.  The class changes are not modelled. -/
def Toolbar.setUnits (t : Toolbar) : Toolbar :=
  { t with
    x := 0
    currentIndex := 0
    totalItemsWidth := t.items.foldl (fun total w => total + w) 0
    sliderWidth := t.sliderOffsetWidth
    offsetXSlider := t.sliderOffsetWidth - t.items.foldl (fun total w => total + w) 0 }

/-- Method `onArrowDown(e)`: lines 69-97, for an arrow whose `data-toolbar-arrow`
is `toolbarArrow`.  The guard of line 83 is evaluated left to right, `&&` binding
tighter than `||`.  The button animation, the transforms and the sound are not
modelled. -/
def Toolbar.onArrowDown (toolbarArrow : String) (t : Toolbar) : Outcome Toolbar :=
  if t.offsetXSlider > 0 then Outcome.ok t
  else
    let direction : Int := if toolbarArrow = "left" then -1 else 1
    let index : Int := if toolbarArrow = "left" then t.currentIndex - 1 else t.currentIndex
    if index < 0 then Outcome.ok t
    else if index = (t.items.length : Int) - 1 then Outcome.ok t
    else
      match t.offsetWidthAt ((t.items.length : Int) - 1) with
      | none => ⟨t, some "TypeError"⟩
      | some lastWidth =>
        if t.x < t.offsetXSlider - lastWidth ∧ direction = 1 then Outcome.ok t
        else
          match t.offsetWidthAt index with
          | none => ⟨t, some "TypeError"⟩
          | some width =>
            Outcome.ok { t with x := t.x + width * -direction,
                                currentIndex := t.currentIndex + direction }

/-- Consecutive `mousedown` events on arrows, each handled by an `onArrowDown` of
its own. -/
def Toolbar.arrows : List String → Toolbar → Toolbar
  | [], t => t
  | a :: as, t => Toolbar.arrows as (Toolbar.onArrowDown a t).state

/-- The sum of the `offsetWidth` of `items[0 .. n - 1]`. -/
def widthBefore (items : List Int) (n : Nat) : Int :=
  (items.take n).sum

/-- The invariant of the toolbar over the item widths `items`: the items are
these, `currentIndex` is the index `c` of one of them, and `x` is minus the sum of
the widths of the items before it. -/
def Toolbar.Inv (items : List Int) (t : Toolbar) : Prop :=
  t.items = items ∧
  ∃ c : Nat, t.currentIndex = (c : Int) ∧ c < items.length ∧ t.x = - widthBefore items c

/-! ## Concrete collaborators, for evaluation -/

/-- A method that changes nothing and returns. -/
def Method.skip {W : Type} : Method W := fun w => (w, none)

/-- Collaborators over a world that is the scoreboard's accumulated time:
`onFrame` adds its argument, a cast hits nothing, everything else changes nothing. -/
def tallySystems : Systems Rat :=
  { create := 0
    sceneUpdate := fun _ => Method.skip
    elvesUpdate := fun _ => Method.skip
    presentUpdate := fun _ => Method.skip
    scoreboardOnFrame := fun d w => (w + d, none)
    render := Method.skip
    cast := fun w => (w, [])
    shoot := fun _ => Method.skip }

/-- Two elves and a tree: objects 0 and 1 are elf sprites, object 1 without a
holding image, everything else is a plain mesh. -/
def demoObjects : ObjId → Object3D
  | 0 => ⟨true, some ⟨some "elf"⟩, some "Elf1@2x.png", 10⟩
  | 1 => ⟨true, some ⟨some "elf"⟩, some "Elf2@2x.png", 11⟩
  | n => ⟨false, none, none, 100 + n⟩

/-- Collaborators over a world that counts the presents shot so far.  A click at
`clientX = 0` hits elf 0 and then the tree, `clientX = 1` hits elf 1,
`clientX = 2` hits the tree, any other click hits nothing.  The promise of the
`n`-th shot is `n`. -/
def demoLevelSystems : LevelSystems Nat :=
  { sceneUpdate := fun _ => Method.skip
    presentUpdate := fun _ => Method.skip
    cast := fun x _ w =>
      if x = 0 then (w, [⟨0, ⟨0, 0, 5⟩, 5⟩, ⟨2, ⟨0, 0, 10⟩, 10⟩])
      else if x = 1 then (w, [⟨1, ⟨1, 0, 7⟩, 7⟩])
      else if x = 2 then (w, [⟨2, ⟨0, 0, 10⟩, 10⟩])
      else (w, [])
    shoot := fun _ w => (w + 1, .ok w)
    getElfImage := fun url => if url = "Elf1_Holding@2x.png" then some 7 else none }

/-- A level with the demo objects in its scene, no texture assigned and nothing
in flight. -/
def demoLevel : Level Nat :=
  { world := 0, objects := demoObjects, maps := fun _ => none, children := [0, 1, 2],
    awaiting := [], calls := [] }

/-- Snowball collaborators over a counter: every method adds one and returns. -/
def countingSnowballSystems : SnowballSystems Nat :=
  { superUpdate := fun n => (n + 1, none)
    collisionUpdate := fun n => (n + 1, none)
    snowballUpdate := fun n => (n + 1, none)
    effectUpdate := fun n => (n + 1, none)
    playerUpdate := fun n => (n + 1, none)
    dummyTargetUpdate := fun n => (n + 1, none) }

/-- Collaborators over a world that counts the scene updates so far: the elves
system throws during the second tick and at no other time. -/
def faultySystems : Systems Nat :=
  { create := 0
    sceneUpdate := fun _ w => (w + 1, none)
    elvesUpdate := fun _ w => (w, if w = 2 then some "boom" else none)
    presentUpdate := fun _ => Method.skip
    scoreboardOnFrame := fun _ => Method.skip
    render := Method.skip
    cast := fun w => (w, [])
    shoot := fun _ => Method.skip }

/-- Level collaborators whose present system always throws. -/
def faultyLevelSystems : LevelSystems Nat :=
  { sceneUpdate := fun _ w => (w + 1, none)
    presentUpdate := fun _ w => (w, some "boom")
    cast := fun _ _ w => (w, [])
    shoot := fun _ w => (w, .ok 0)
    getElfImage := fun _ => none }

/-- Collaborators over a world of two clocks, the age of the scene and the time
on the scoreboard: `start` creates both at 0, the scene update advances the
first and `onFrame` the second. -/
def agingSystems : Systems (Rat × Rat) :=
  { create := (0, 0)
    sceneUpdate := fun d w => ((w.1 + d, w.2), none)
    elvesUpdate := fun _ => Method.skip
    presentUpdate := fun _ => Method.skip
    scoreboardOnFrame := fun d w => ((w.1, w.2 + d), none)
    render := Method.skip
    cast := fun w => (w, [])
    shoot := fun _ => Method.skip }

/-- A scene with a far target, object 1 at distance 10, listed before a near one,
object 0 at distance 5, both on every ray, and a third that no ray meets. -/
def demoScene : List Target :=
  [⟨1, fun _ _ => some (⟨0, 0, 10⟩, 10)⟩, ⟨0, fun _ _ => some (⟨0, 0, 5⟩, 5)⟩,
   ⟨2, fun _ _ => none⟩]

/-- A toolbar of three items of widths 40, 50 and 60 in a slider of width 100,
as its constructor leaves it before the first `setUnits`. -/
def demoToolbar : Toolbar :=
  { items := [40, 50, 60], sliderOffsetWidth := 100, currentIndex := 0, x := 0,
    totalItemsWidth := 0, sliderWidth := 0, offsetXSlider := 0 }

/-- A toolbar whose first item has width 0, in a slider of width 0. -/
def hiddenItemToolbar : Toolbar :=
  { items := [0, 5], sliderOffsetWidth := 0, currentIndex := 0, x := 0,
    totalItemsWidth := 0, sliderWidth := 0, offsetXSlider := 0 }

/-- Level collaborators over a number that records the order of the updates:
every method appends its own digit, the scene 1 and the present system 2. -/
def orderedLevelSystems : LevelSystems Nat :=
  { sceneUpdate := fun _ w => (10 * w + 1, none)
    presentUpdate := fun _ w => (10 * w + 2, none)
    cast := fun _ _ w => (w, [])
    shoot := fun _ w => (w, .ok 0)
    getElfImage := fun _ => none }

/-- Snowball collaborators over a number that records the order of the updates:
every method appends its own digit, from 1 for `super.update` to 6 for the
dummy-target system. -/
def orderedSnowballSystems : SnowballSystems Nat :=
  { superUpdate := fun n => (10 * n + 1, none)
    collisionUpdate := fun n => (10 * n + 2, none)
    snowballUpdate := fun n => (10 * n + 3, none)
    effectUpdate := fun n => (10 * n + 4, none)
    playerUpdate := fun n => (10 * n + 5, none)
    dummyTargetUpdate := fun n => (10 * n + 6, none) }

/-! ## Theorems -/

/-! ### Sequencing -/

theorem Outcome.andThen_of_none {σ : Type} (r : Outcome σ) (k : σ → Outcome σ)
    (h : r.thrown = none) : r.andThen k = k r.state := by
  simp [Outcome.andThen, h]

theorem Outcome.andThen_of_some {σ : Type} (r : Outcome σ) (k : σ → Outcome σ) (e : String)
    (h : r.thrown = some e) : r.andThen k = ⟨r.state, some e⟩ := by
  simp [Outcome.andThen, h]

theorem Outcome.andThen_thrown_none {σ : Type} (r : Outcome σ) (k : σ → Outcome σ)
    (h : (r.andThen k).thrown = none) : r.thrown = none ∧ (k r.state).thrown = none := by
  cases hr : r.thrown with
  | none => simpa [Outcome.andThen, hr] using h
  | some e => simp [Outcome.andThen, hr] at h

/-! ### The railroad game loop -/

/-- The calls of one complete update phase. -/
theorem Game.gameUpdate_of_returns {W : Type} (sys : Systems W) (nowSeconds : Rat) (g : Game W)
    (h : (g.update sys nowSeconds).thrown = none) :
    g.started = true ∧
    (g.update sys nowSeconds).state.calls = g.calls ++
      [.sceneUpdate (nowSeconds - g.previousSeconds.getD 0),
       .elvesUpdate (nowSeconds - g.previousSeconds.getD 0),
       .presentUpdate (nowSeconds - g.previousSeconds.getD 0),
       .scoreboardOnFrame (nowSeconds - g.previousSeconds.getD 0)] ∧
    (g.update sys nowSeconds).state.previousSeconds = some nowSeconds ∧
    (g.update sys nowSeconds).state.paused = g.paused ∧
    (g.update sys nowSeconds).state.pending = g.pending ∧
    (g.update sys nowSeconds).state.started = true := by
  unfold Game.update at h ⊢
  cases hs : g.started with
  | false => simp [hs] at h
  | true =>
    simp only [hs, if_true] at h ⊢
    obtain ⟨h4, _⟩ := Outcome.andThen_thrown_none _ _ h
    obtain ⟨h3, h4'⟩ := Outcome.andThen_thrown_none _ _ h4
    obtain ⟨h2, h3'⟩ := Outcome.andThen_thrown_none _ _ h3
    obtain ⟨h1, h2'⟩ := Outcome.andThen_thrown_none _ _ h2
    rw [Outcome.andThen_of_none _ _ h4, Outcome.andThen_of_none _ _ h3,
      Outcome.andThen_of_none _ _ h2, Outcome.andThen_of_none _ _ h1]
    simp [Game.invoke, Outcome.ok, hs]

/-- The world after one complete update phase: every method has run once, in
source order, each on the world the one before it left. -/
theorem Game.update_world_of_returns {W : Type} (sys : Systems W) (nowSeconds : Rat)
    (g : Game W) (h : (g.update sys nowSeconds).thrown = none) :
    (g.update sys nowSeconds).state.world =
      (sys.scoreboardOnFrame (nowSeconds - g.previousSeconds.getD 0)
        (sys.presentUpdate (nowSeconds - g.previousSeconds.getD 0)
          (sys.elvesUpdate (nowSeconds - g.previousSeconds.getD 0)
            (sys.sceneUpdate (nowSeconds - g.previousSeconds.getD 0) g.world).1).1).1).1 := by
  unfold Game.update at h ⊢
  cases hs : g.started with
  | false => simp [hs] at h
  | true =>
    simp only [hs, if_true] at h ⊢
    obtain ⟨h4, _⟩ := Outcome.andThen_thrown_none _ _ h
    obtain ⟨h3, _⟩ := Outcome.andThen_thrown_none _ _ h4
    obtain ⟨h2, _⟩ := Outcome.andThen_thrown_none _ _ h3
    obtain ⟨h1, _⟩ := Outcome.andThen_thrown_none _ _ h2
    rw [Outcome.andThen_of_none _ _ h4, Outcome.andThen_of_none _ _ h3,
      Outcome.andThen_of_none _ _ h2, Outcome.andThen_of_none _ _ h1]
    simp [Game.invoke, Outcome.ok]

theorem Game.mainLoop_of_paused {W : Type} (sys : Systems W) (nowSeconds : Rat) (g : Game W)
    (h : g.paused = true) : Game.mainLoop sys nowSeconds g = Outcome.ok g := by
  simp [Game.mainLoop, h]

theorem Game.ticks_of_paused {W : Type} (sys : Systems W) (nows : List Rat) (g : Game W)
    (h : g.paused = true) : Game.ticks sys nows g = g := by
  induction nows with
  | nil => rfl
  | cons t ts ih => simp [Game.ticks, Game.mainLoop_of_paused sys t g h, Outcome.ok, ih]

theorem Game.frame_of_paused {W : Type} (sys : Systems W) (nowSeconds : Rat) (g : Game W)
    (h : g.paused = true) :
    (Game.frame sys nowSeconds g).state = { g with pending := g.pending - 1 } ∧
    (Game.frame sys nowSeconds g).thrown = none := by
  unfold Game.frame
  by_cases hp : g.pending = 0
  · cases g
    simp_all [Outcome.ok]
  · simp [hp, Game.mainLoop, h, Outcome.ok]

theorem Game.frames_of_paused {W : Type} (sys : Systems W) (nows : List Rat) (g : Game W)
    (h : g.paused = true) :
    Game.frames sys nows g = { g with pending := g.pending - nows.length } := by
  induction nows generalizing g with
  | nil => simp [Game.frames]
  | cons t ts ih =>
    simp only [Game.frames, (Game.frame_of_paused sys t g h).1]
    rw [ih { g with pending := g.pending - 1 } h]
    simp [Nat.sub_sub, Nat.add_comm]

/-- C1: with `paused = false`, `resume()` only logs its warning: every field, the
world and the queue of frame callbacks are as before, no update or render call is
made, and nothing is thrown. -/
theorem resume_running_noop {W : Type} (sys : Systems W) (nowResume nowUpdate : Rat)
    (g : Game W) (h : g.paused = false) :
    Game.resume sys nowResume nowUpdate g =
      Outcome.ok { g with calls := g.calls ++
        [Call.warn "Game must be paused before it can be resumed"] } := by
  simp [Game.resume, h, Game.note]

/-- C1, evaluated: a freshly constructed game is running, and resuming it adds
the warning to the log and nothing else. -/
theorem resume_running_noop_witness :
    (Game.construct (0 : Rat) 1).paused = false ∧
    Game.resume tallySystems 5 6 (Game.construct 0 1) =
      Outcome.ok { Game.construct (0 : Rat) 1 with calls := (Game.construct (0 : Rat) 1).calls ++
        [Call.warn "Game must be paused before it can be resumed"] } :=
  ⟨rfl, resume_running_noop tallySystems 5 6 (Game.construct 0 1) rfl⟩

/-- C2: while `paused = true`, `mainLoop()` returns at once, so any number of
invocations leaves the whole state as it is: the log (no scene update, system
update, `onFrame` or render), the world and the fields.  When the invocations come
from queued frame callbacks, only the queue shrinks.  In particular, after
`start`, `pause()`, `resume()`, `pause()`, frame callbacks add nothing to the log
and leave the world (the accumulated score and time) as it is. -/
theorem paused_ticks_change_nothing {W : Type} (sys : Systems W) (g : Game W)
    (h : g.paused = true) (nows : List Rat) :
    (∀ t, Game.mainLoop sys t g = Outcome.ok g) ∧
    Game.ticks sys nows g = g ∧
    Game.frames sys nows g = { g with pending := g.pending - nows.length } ∧
    (∀ (g0 : Game W) (t1 t2 t3 : Rat),
      Game.frames sys nows
          (Game.resume sys t2 t3 (Game.start sys t1 g0).state.pause).state.pause =
        { (Game.resume sys t2 t3 (Game.start sys t1 g0).state.pause).state.pause with
          pending := (Game.resume sys t2 t3 (Game.start sys t1 g0).state.pause).state.pause.pending
            - nows.length }) :=
  ⟨fun t => Game.mainLoop_of_paused sys t g h, Game.ticks_of_paused sys nows g h,
   Game.frames_of_paused sys nows g h,
   fun _ _ _ _ => Game.frames_of_paused sys nows _ rfl⟩

/-- C2, evaluated: start at 2, pause, resume at 5, pause; three frame callbacks
later the log still ends with the frame requested by the resume and the
scoreboard still shows the time accumulated until then. -/
theorem paused_ticks_change_nothing_witness :
    (Game.run tallySystems [.start 2, .pause, .resume 5 6, .pause] (Game.construct 0 1)).paused
      = true ∧
    Game.ticks tallySystems [7, 8, 9]
        (Game.run tallySystems [.start 2, .pause, .resume 5 6, .pause] (Game.construct 0 1)) =
      Game.run tallySystems [.start 2, .pause, .resume 5 6, .pause] (Game.construct 0 1) :=
  ⟨rfl, (paused_ticks_change_nothing tallySystems
    (Game.run tallySystems [.start 2, .pause, .resume 5 6, .pause] (Game.construct 0 1))
    rfl [7, 8, 9]).2.1⟩

/-- C3, at the failing input: a game constructed at clock 1700000000 and started
at 1700000001 is paused; `restart()` at clock 1700000100 leaves `previousSeconds`
at `null`, so the first update of the restarted loop passes the whole clock
reading 1700000100 as `deltaSeconds`.  `resume()` from the same state, reading
1700000100 at line 72 and 1700000100.016 in `update`, passes 0.016. -/
theorem restart_first_delta_is_clock_reading :
    (Game.restart tallySystems 1700000100
        (Game.run tallySystems [.start 1700000001, .pause]
          (Game.construct 0 1700000000))).state.calls.drop 6 =
      [.log "TODO", .sceneUpdate 1700000100, .elvesUpdate 1700000100,
       .presentUpdate 1700000100, .scoreboardOnFrame 1700000100, .render,
       .requestAnimationFrame] ∧
    (Game.resume tallySystems 1700000100 (1700000100 + 16 / 1000)
        (Game.run tallySystems [.start 1700000001, .pause]
          (Game.construct 0 1700000000))).state.calls.drop 6 =
      [.sceneUpdate (16 / 1000), .elvesUpdate (16 / 1000), .presentUpdate (16 / 1000),
       .scoreboardOnFrame (16 / 1000), .render, .requestAnimationFrame] := by
  constructor <;>
    simp [Game.run, Game.step, Game.start, Game.restart, Game.resume, Game.mainLoop,
      Game.update, Game.render, Game.invoke, Game.note, Game.pause, Game.construct,
      Outcome.andThen, Outcome.ok, tallySystems, Method.skip]

/-- C10: a `mainLoop()` tick of a running game with `previousSeconds = p` at clock
`n`, when nothing throws, runs the scene's and the three systems' updates with
`n - p`, then render, then `requestAnimationFrame` once: the log grows by these
six calls in this order, and the world is the one that the four update methods
and then the renderer leave, each run once on the world left by the one before.
It leaves `previousSeconds = n`, one more frame callback queued, and the game
running. -/
theorem mainLoop_running_tick {W : Type} (sys : Systems W) (n p : Rat) (g : Game W)
    (hrun : g.paused = false) (hprev : g.previousSeconds = some p)
    (hret : (Game.mainLoop sys n g).thrown = none) :
    (Game.mainLoop sys n g).state.calls = g.calls ++
      [.sceneUpdate (n - p), .elvesUpdate (n - p), .presentUpdate (n - p),
       .scoreboardOnFrame (n - p), .render, .requestAnimationFrame] ∧
    (Game.mainLoop sys n g).state.world =
      (sys.render
        (sys.scoreboardOnFrame (n - p)
          (sys.presentUpdate (n - p)
            (sys.elvesUpdate (n - p) (sys.sceneUpdate (n - p) g.world).1).1).1).1).1 ∧
    (Game.mainLoop sys n g).state.previousSeconds = some n ∧
    (Game.mainLoop sys n g).state.pending = g.pending + 1 ∧
    (Game.mainLoop sys n g).state.paused = false := by
  unfold Game.mainLoop at hret ⊢
  simp only [hrun, Bool.false_eq_true, if_false] at hret ⊢
  obtain ⟨h2, _⟩ := Outcome.andThen_thrown_none _ _ hret
  obtain ⟨h1, h2'⟩ := Outcome.andThen_thrown_none _ _ h2
  obtain ⟨hs, hc, hp, hpa, hpe, hst⟩ := Game.gameUpdate_of_returns sys n g h1
  have hw := Game.update_world_of_returns sys n g h1
  rw [Outcome.andThen_of_none _ _ h2, Outcome.andThen_of_none _ _ h1]
  simp [Game.render, hst, Game.invoke, Outcome.ok, hc, hp, hpa, hpe, hw, hprev, hrun]

/-- C10, evaluated: constructed at 1 and started at 3, the first tick passes 2 to
the scene, the systems and the scoreboard, whose time goes from 0 to 2, and then
renders and requests a frame. -/
theorem mainLoop_running_tick_witness :
    (Game.mainLoop tallySystems 3
        { Game.construct (0 : Rat) 1 with started := true }).state.calls =
      (Game.construct (0 : Rat) 1).calls ++
      [.sceneUpdate (3 - 1), .elvesUpdate (3 - 1), .presentUpdate (3 - 1),
       .scoreboardOnFrame (3 - 1), .render, .requestAnimationFrame] ∧
    (Game.mainLoop tallySystems 3
        { Game.construct (0 : Rat) 1 with started := true }).state.world = 2 := by
  have h := mainLoop_running_tick tallySystems 3 1
    { Game.construct (0 : Rat) 1 with started := true } rfl rfl rfl
  refine ⟨h.1, ?_⟩
  rw [h.2.1]
  simp [tallySystems, Method.skip, Game.construct]
  norm_num

/-! ### The update phases -/

theorem Level.levelUpdate_of_returns {W : Type} (sys : LevelSystems W) (deltaSeconds : Rat)
    (l : Level W) (h : (l.update sys deltaSeconds).thrown = none) :
    (l.update sys deltaSeconds).state.calls =
      l.calls ++ [.sceneUpdate deltaSeconds, .presentUpdate deltaSeconds] ∧
    (l.update sys deltaSeconds).state.world =
      (sys.presentUpdate deltaSeconds (sys.sceneUpdate deltaSeconds l.world).1).1 := by
  unfold Level.update at h ⊢
  obtain ⟨h1, _⟩ := Outcome.andThen_thrown_none _ _ h
  rw [Outcome.andThen_of_none _ _ h1]
  simp [Level.invoke]

theorem SnowballGame.snowballUpdate_of_returns {G : Type} (sys : SnowballSystems G)
    (g : SnowballGame G) (h : (g.update sys).thrown = none) :
    (g.update sys).state.calls = g.calls ++
      [.superUpdate, .collisionUpdate, .snowballUpdate, .effectUpdate, .playerUpdate,
       .dummyTargetUpdate] ∧
    (g.update sys).state.self =
      (sys.dummyTargetUpdate (sys.playerUpdate (sys.effectUpdate (sys.snowballUpdate
        (sys.collisionUpdate (sys.superUpdate g.self).1).1).1).1).1).1 := by
  unfold SnowballGame.update at h ⊢
  obtain ⟨h5, _⟩ := Outcome.andThen_thrown_none _ _ h
  obtain ⟨h4, _⟩ := Outcome.andThen_thrown_none _ _ h5
  obtain ⟨h3, _⟩ := Outcome.andThen_thrown_none _ _ h4
  obtain ⟨h2, _⟩ := Outcome.andThen_thrown_none _ _ h3
  obtain ⟨h1, _⟩ := Outcome.andThen_thrown_none _ _ h2
  rw [Outcome.andThen_of_none _ _ h5, Outcome.andThen_of_none _ _ h4,
    Outcome.andThen_of_none _ _ h3, Outcome.andThen_of_none _ _ h2,
    Outcome.andThen_of_none _ _ h1]
  simp [SnowballGame.invoke]

/-- C9: an update phase that returns has run exactly these methods, once each
and in this order, every one on the state that the one before it left; the log
shows the calls and the resulting state is the composition of the methods.
Railroad `Game.update`: scene, elves system, present system, scoreboard, all with
the one `deltaSeconds = now - previousSeconds`.  `Level.update`: scene, present
system, both with the `deltaSeconds` it was given.  `SnowballGame.update`:
`super.update`, then the collision, snowball, effect, player and dummy-target
systems, each with the game itself. -/
theorem update_phase_order {W V G : Type} (sys : Systems W) (lsys : LevelSystems V)
    (ssys : SnowballSystems G) (nowSeconds deltaSeconds : Rat) (g : Game W) (l : Level V)
    (sg : SnowballGame G)
    (hg : (g.update sys nowSeconds).thrown = none)
    (hl : (l.update lsys deltaSeconds).thrown = none)
    (hs : (sg.update ssys).thrown = none) :
    (g.update sys nowSeconds).state.calls = g.calls ++
      [.sceneUpdate (nowSeconds - g.previousSeconds.getD 0),
       .elvesUpdate (nowSeconds - g.previousSeconds.getD 0),
       .presentUpdate (nowSeconds - g.previousSeconds.getD 0),
       .scoreboardOnFrame (nowSeconds - g.previousSeconds.getD 0)] ∧
    (g.update sys nowSeconds).state.world =
      (sys.scoreboardOnFrame (nowSeconds - g.previousSeconds.getD 0)
        (sys.presentUpdate (nowSeconds - g.previousSeconds.getD 0)
          (sys.elvesUpdate (nowSeconds - g.previousSeconds.getD 0)
            (sys.sceneUpdate (nowSeconds - g.previousSeconds.getD 0) g.world).1).1).1).1 ∧
    (l.update lsys deltaSeconds).state.calls =
      l.calls ++ [.sceneUpdate deltaSeconds, .presentUpdate deltaSeconds] ∧
    (l.update lsys deltaSeconds).state.world =
      (lsys.presentUpdate deltaSeconds (lsys.sceneUpdate deltaSeconds l.world).1).1 ∧
    (sg.update ssys).state.calls = sg.calls ++
      [.superUpdate, .collisionUpdate, .snowballUpdate, .effectUpdate, .playerUpdate,
       .dummyTargetUpdate] ∧
    (sg.update ssys).state.self =
      (ssys.dummyTargetUpdate (ssys.playerUpdate (ssys.effectUpdate (ssys.snowballUpdate
        (ssys.collisionUpdate (ssys.superUpdate sg.self).1).1).1).1).1).1 :=
  ⟨(Game.gameUpdate_of_returns sys nowSeconds g hg).2.1,
   Game.update_world_of_returns sys nowSeconds g hg,
   (Level.levelUpdate_of_returns lsys deltaSeconds l hl).1,
   (Level.levelUpdate_of_returns lsys deltaSeconds l hl).2,
   (SnowballGame.snowballUpdate_of_returns ssys sg hs).1,
   (SnowballGame.snowballUpdate_of_returns ssys sg hs).2⟩

/-- C9, evaluated on the concrete collaborators: the tally scoreboard has
accumulated the 2 s it was passed, the ordered level has seen the scene and then
the present system, and each of the six snowball methods has added its digit. -/
theorem update_phase_order_witness :
    (Game.update tallySystems 3 { Game.construct (0 : Rat) 1 with started := true }).state.calls
      = [] ++ [.sceneUpdate (3 - (some (1 : Rat)).getD 0),
         .elvesUpdate (3 - (some (1 : Rat)).getD 0),
         .presentUpdate (3 - (some (1 : Rat)).getD 0),
         .scoreboardOnFrame (3 - (some (1 : Rat)).getD 0)] ∧
    (Game.update tallySystems 3 { Game.construct (0 : Rat) 1 with started := true }).state.world
      = 2 ∧
    (Level.update orderedLevelSystems (1 / 10) { demoLevel with world := 0 }).state.calls =
      [] ++ [.sceneUpdate (1 / 10), .presentUpdate (1 / 10)] ∧
    (Level.update orderedLevelSystems (1 / 10) { demoLevel with world := 0 }).state.world
      = 12 ∧
    (SnowballGame.update orderedSnowballSystems ⟨0, []⟩).state.calls = [] ++
      [.superUpdate, .collisionUpdate, .snowballUpdate, .effectUpdate, .playerUpdate,
       .dummyTargetUpdate] ∧
    (SnowballGame.update orderedSnowballSystems ⟨0, []⟩).state.self = 123456 := by
  have h := update_phase_order tallySystems orderedLevelSystems orderedSnowballSystems 3
    (1 / 10) { Game.construct (0 : Rat) 1 with started := true } { demoLevel with world := 0 }
    ⟨0, []⟩ rfl rfl rfl
  refine ⟨h.1, ?_, h.2.2.1, ?_, h.2.2.2.2.1, ?_⟩
  · rw [h.2.1]
    simp [tallySystems, Method.skip, Game.construct]
    norm_num
  · rw [h.2.2.2.1]
    rfl
  · rw [h.2.2.2.2.2]
    rfl

/-! ### Bounds on `deltaSeconds` -/

theorem Outcome.andThen_state {σ : Type} (q : σ → Prop) (r : Outcome σ) (k : σ → Outcome σ)
    (hr : q r.state) (hk : ∀ s, q s → q (k s).state) : q (r.andThen k).state := by
  unfold Outcome.andThen
  split
  · exact hk _ hr
  · exact hr

theorem DeltasSatisfy.append {p : Rat → Prop} {xs ys : List Call}
    (hx : DeltasSatisfy p xs) (hy : DeltasSatisfy p ys) : DeltasSatisfy p (xs ++ ys) := by
  intro c hc d hd
  rcases List.mem_append.1 hc with h | h
  · exact hx c h d hd
  · exact hy c h d hd

theorem DeltasSatisfy.single {p : Rat → Prop} (c : Call)
    (h : ∀ d, c.delta? = some d → p d) : DeltasSatisfy p [c] := by
  intro c' hc d hd
  rw [List.mem_singleton.1 hc] at hd
  exact h d hd

theorem Game.invoke_kept {W : Type} (p : Rat → Prop) (nowSeconds : Rat) (g s : Game W)
    (c : Call) (f : Method W) (hc : ∀ d, c.delta? = some d → p d)
    (hs : Game.Kept p nowSeconds g s) : Game.Kept p nowSeconds g (s.invoke c f).state :=
  ⟨DeltasSatisfy.append hs.1 (DeltasSatisfy.single c hc), hs.2⟩

theorem Game.update_kept {W : Type} (sys : Systems W) (nowSeconds : Rat) (g : Game W)
    (p : Rat → Prop) (hcalls : DeltasSatisfy p g.calls)
    (hd : p (nowSeconds - g.previousSeconds.getD 0)) :
    Game.Kept p nowSeconds g (g.update sys nowSeconds).state := by
  have h0 : Game.Kept p nowSeconds g g := ⟨hcalls, Or.inl rfl⟩
  have hdelta : ∀ c : Call, c.delta? = some (nowSeconds - g.previousSeconds.getD 0) →
      ∀ d, c.delta? = some d → p d := by
    intro c hc d hcd
    rw [hc] at hcd
    cases hcd
    exact hd
  unfold Game.update
  split
  · refine Outcome.andThen_state _ _ _ (Outcome.andThen_state _ _ _
      (Outcome.andThen_state _ _ _ (Outcome.andThen_state _ _ _ ?_ ?_) ?_) ?_) ?_
    · exact Game.invoke_kept p nowSeconds g g _ _ (hdelta _ rfl) h0
    · exact fun s hs => Game.invoke_kept p nowSeconds g s _ _ (hdelta _ rfl) hs
    · exact fun s hs => Game.invoke_kept p nowSeconds g s _ _ (hdelta _ rfl) hs
    · exact fun s hs => Game.invoke_kept p nowSeconds g s _ _ (hdelta _ rfl) hs
    · exact fun s hs => ⟨hs.1, Or.inr rfl⟩
  · exact h0

theorem Game.mainLoop_kept {W : Type} (sys : Systems W) (nowSeconds : Rat) (g : Game W)
    (p : Rat → Prop) (hcalls : DeltasSatisfy p g.calls)
    (hd : g.paused = false → p (nowSeconds - g.previousSeconds.getD 0)) :
    Game.Kept p nowSeconds g (Game.mainLoop sys nowSeconds g).state := by
  unfold Game.mainLoop
  cases hp : g.paused with
  | true => exact ⟨hcalls, Or.inl rfl⟩
  | false =>
    simp only [Bool.false_eq_true, if_false]
    refine Outcome.andThen_state _ _ _ (Outcome.andThen_state _ _ _ ?_ ?_) ?_
    · exact Game.update_kept sys nowSeconds g p hcalls (hd hp)
    · intro s hs
      unfold Game.render
      split
      · exact Game.invoke_kept p nowSeconds g s _ _ (by simp [Call.delta?]) hs
      · exact hs
    · intro s hs
      exact ⟨DeltasSatisfy.append hs.1 (DeltasSatisfy.single _ (by simp [Call.delta?])), hs.2⟩

theorem Game.mainLoop_clockInv {W : Type} (sys : Systems W) (t n : Rat) (g : Game W)
    (hinv : Game.ClockInv t g) (h0 : 0 ≤ t) (hle : t ≤ n) :
    Game.ClockInv n (Game.mainLoop sys n g).state := by
  have hd : 0 ≤ n - g.previousSeconds.getD 0 := by
    cases hp : g.previousSeconds with
    | none => simpa using le_trans h0 hle
    | some p => simpa using le_trans (hinv.1 p hp) hle
  obtain ⟨hc, hprev⟩ := Game.mainLoop_kept sys n g (fun d => 0 ≤ d) hinv.2 (fun _ => hd)
  refine ⟨?_, hc⟩
  intro p hp
  rcases hprev with h | h
  · rw [h] at hp
    exact le_trans (hinv.1 p hp) hle
  · rw [h] at hp
    cases hp
    exact le_refl _

theorem Game.clockInv_mono {W : Type} (t n : Rat) (g : Game W)
    (hinv : Game.ClockInv t g) (hle : t ≤ n) : Game.ClockInv n g :=
  ⟨fun p hp => le_trans (hinv.1 p hp) hle, hinv.2⟩

theorem Game.run_clockInv {W : Type} (sys : Systems W) (as : List Action) :
    ∀ (t : Rat) (g : Game W), Game.ClockInv t g → 0 ≤ t →
      List.Chain (fun a b : Rat => a ≤ b) t (readingsOf as) →
      DeltasSatisfy (fun d => 0 ≤ d) (Game.run sys as g).calls := by
  induction as with
  | nil => exact fun t g hinv _ _ => hinv.2
  | cons a as ih =>
    intro t g hinv h0 hch
    cases a with
    | start n =>
      simp only [readingsOf, Action.readings, List.singleton_append, List.chain_cons] at hch
      refine ih n _ ?_ (le_trans h0 hch.1) hch.2
      exact Game.mainLoop_clockInv sys t n _ ⟨hinv.1, hinv.2⟩ h0 hch.1
    | pause =>
      simp only [readingsOf, Action.readings, List.nil_append] at hch
      refine ih t _ ?_ h0 hch
      exact ⟨fun p hp => by simp [Game.step, Game.pause] at hp, hinv.2⟩
    | resume n u =>
      simp only [readingsOf, Action.readings, List.cons_append, List.nil_append,
        List.chain_cons] at hch
      obtain ⟨htn, hnu, hrest⟩ := hch
      refine ih u _ ?_ (le_trans h0 (le_trans htn hnu)) hrest
      simp only [Game.run, Game.step, Game.resume]
      split
      · refine Game.clockInv_mono t u _ ⟨hinv.1, ?_⟩ (le_trans htn hnu)
        exact DeltasSatisfy.append hinv.2 (DeltasSatisfy.single _ (by simp [Call.delta?]))
      · refine Game.mainLoop_clockInv sys n u _ ⟨?_, hinv.2⟩ (le_trans h0 htn) hnu
        intro p hp
        cases hp
        exact le_refl _
    | restart n =>
      simp only [readingsOf, Action.readings, List.singleton_append, List.chain_cons] at hch
      refine ih n _ ?_ (le_trans h0 hch.1) hch.2
      simp only [Game.run, Game.step, Game.restart]
      split
      · refine Game.clockInv_mono t n _ ⟨hinv.1, ?_⟩ hch.1
        exact DeltasSatisfy.append hinv.2 (DeltasSatisfy.single _ (by simp [Call.delta?]))
      · refine Game.mainLoop_clockInv sys t n _ ⟨hinv.1, ?_⟩ h0 hch.1
        exact DeltasSatisfy.append hinv.2 (DeltasSatisfy.single _ (by simp [Call.delta?]))
    | frame n =>
      simp only [readingsOf, Action.readings, List.singleton_append, List.chain_cons] at hch
      refine ih n _ ?_ (le_trans h0 hch.1) hch.2
      simp only [Game.run, Game.step, Game.frame]
      split
      · exact Game.clockInv_mono t n _ hinv hch.1
      · exact Game.mainLoop_clockInv sys t n _ ⟨hinv.1, hinv.2⟩ h0 hch.1

/-- No fixed bound holds for `deltaSeconds`.  Whatever the bound `B`, a game
constructed at clock 0 whose `start` finishes preloading at clock `max B 0 + 1`
passes that whole time to the scene and the systems. -/
theorem no_fixed_clamp_on_delta :
    ¬ ∃ B : Rat, ∀ (t0 : Rat) (as : List Action), 0 ≤ t0 → MonotoneClock t0 as →
      DeltasSatisfy (fun d => 0 ≤ d ∧ d ≤ B)
        (Game.run tallySystems as (Game.construct 0 t0)).calls := by
  rintro ⟨B, h⟩
  have hmono : MonotoneClock 0 [.start (max B 0 + 1)] := by
    simp only [MonotoneClock, readingsOf, Action.readings, List.append_nil,
      List.chain_cons, List.Chain.nil, and_true]
    have := le_max_right B 0
    linarith
  have hb := h 0 [.start (max B 0 + 1)] (le_refl _) hmono
    (.sceneUpdate (max B 0 + 1)) (by
      simp [Game.run, Game.step, Game.start, Game.mainLoop, Game.update, Game.render,
        Game.invoke, Game.construct, Outcome.andThen, Outcome.ok, tallySystems, Method.skip])
    (max B 0 + 1) rfl
  have := le_max_left B 0
  linarith [hb.2]

/-- The lower bound on `deltaSeconds`: under a monotone clock that starts at a
non-negative reading, every `deltaSeconds` passed to the scene, to a system or to
the scoreboard, in any sequence of start, pause, resume, restart and frame
callbacks after construction, is non-negative. -/
theorem deltas_nonnegative {W : Type} (sys : Systems W) (world0 : W) (t0 : Rat)
    (as : List Action) (h0 : 0 ≤ t0) (hmono : MonotoneClock t0 as) :
    DeltasSatisfy (fun d => 0 ≤ d) (Game.run sys as (Game.construct world0 t0)).calls := by
  refine Game.run_clockInv sys as t0 _ ⟨?_, ?_⟩ h0 hmono
  · intro p hp
    simp only [Game.construct, Option.some.injEq] at hp
    exact le_of_eq hp.symm
  · intro c hc
    simp [Game.construct] at hc

/-- The lower bound on `deltaSeconds`, evaluated on a run with every kind of
action. -/
theorem deltas_nonnegative_witness :
    (0 : Rat) ≤ 1 ∧
    MonotoneClock 1 [.start 2, .frame 3, .pause, .resume 5 6, .pause, .restart 9] ∧
    DeltasSatisfy (fun d => 0 ≤ d)
      (Game.run tallySystems [.start 2, .frame 3, .pause, .resume 5 6, .pause, .restart 9]
        (Game.construct 0 1)).calls :=
  have hmono : MonotoneClock 1
      [.start 2, .frame 3, .pause, .resume 5 6, .pause, .restart 9] := by
    simp only [MonotoneClock, readingsOf, Action.readings, List.cons_append, List.nil_append,
      List.append_nil, List.chain_cons, List.Chain.nil, and_true]
    norm_num
  ⟨by norm_num, hmono, deltas_nonnegative tallySystems 0 1 _ (by norm_num) hmono⟩

/-- C4, at the failing input: a game is constructed at clock 1700000000 and its
`start()` finishes preloading 5 s later.  `previousSeconds` still holds the
reading of the constructor, and `update()` passes the difference on as it is: the
first tick hands 5 s to the scene, the systems and the scoreboard.  A frame
callback that the host runs 60 s later hands on 60 s.  No bound is applied
anywhere: for every `B` some run under a monotone clock passes more than `B`. -/
theorem first_tick_passes_unclamped_delta :
    (Game.run tallySystems [.start 1700000005] (Game.construct 0 1700000000)).calls =
      [.sceneUpdate 5, .elvesUpdate 5, .presentUpdate 5, .scoreboardOnFrame 5, .render,
       .requestAnimationFrame] ∧
    (Game.run tallySystems [.start 1700000005, .frame 1700000065]
      (Game.construct 0 1700000000)).calls.drop 6 =
      [.sceneUpdate 60, .elvesUpdate 60, .presentUpdate 60, .scoreboardOnFrame 60, .render,
       .requestAnimationFrame] ∧
    ¬ ∃ B : Rat, ∀ (t0 : Rat) (as : List Action), 0 ≤ t0 → MonotoneClock t0 as →
      DeltasSatisfy (fun d => 0 ≤ d ∧ d ≤ B)
        (Game.run tallySystems as (Game.construct 0 t0)).calls := by
  refine ⟨?_, ?_, no_fixed_clamp_on_delta⟩
  · simp [Game.run, Game.step, Game.start, Game.mainLoop, Game.update, Game.render,
      Game.invoke, Game.construct, Outcome.andThen, Outcome.ok, tallySystems, Method.skip]
    norm_num
  · simp [Game.run, Game.step, Game.start, Game.frame, Game.mainLoop, Game.update,
      Game.render, Game.invoke, Game.construct, Outcome.andThen, Outcome.ok, tallySystems,
      Method.skip]
    norm_num

/-! ### Clicks -/

/-- C5: a click whose cast returns no intersection makes no call but the cast
itself: `shoot` is not invoked, no continuation is suspended, the objects, the
materials and the scene graph are as before, and nothing is thrown.  The same
holds for `Level.handleClick` and for the railroad `Game.handleClick`. -/
theorem handleClick_empty_cast {V W : Type} (lsys : LevelSystems V) (clientX clientY : Rat)
    (l : Level V) (sys : Systems W) (g : Game W)
    (hl : (lsys.cast clientX clientY l.world).2 = [])
    (hstarted : g.started = true) (hg : (sys.cast g.world).2 = []) :
    Level.handleClick lsys clientX clientY l =
      Outcome.ok { l with world := (lsys.cast clientX clientY l.world).1,
                          calls := l.calls ++ [.cast] } ∧
    Game.handleClick sys g =
      Outcome.ok { g with world := (sys.cast g.world).1, calls := g.calls ++ [.cast] } := by
  constructor
  · simp [Level.handleClick, hl]
  · simp [Game.handleClick, hstarted, hg]

/-- C5, evaluated: a click at `clientX = 5` hits nothing in the demo level, and
no cast of the tally collaborators hits anything. -/
theorem handleClick_empty_cast_witness :
    (Level.handleClick demoLevelSystems 5 0 demoLevel).state.calls = [.cast] ∧
    (Level.handleClick demoLevelSystems 5 0 demoLevel).state.awaiting = [] ∧
    (Level.handleClick demoLevelSystems 5 0 demoLevel).thrown = none ∧
    (Game.handleClick tallySystems
      { Game.construct (0 : Rat) 1 with started := true }).state.calls = [.cast] := by
  have h := handleClick_empty_cast demoLevelSystems 5 0 demoLevel tallySystems
    { Game.construct (0 : Rat) 1 with started := true } (by simp [demoLevelSystems]) rfl rfl
  rw [h.1, h.2]
  exact ⟨rfl, rfl, rfl, rfl⟩

theorem shots_append (xs ys : List Call) : shots (xs ++ ys) = shots xs ++ shots ys := by
  induction xs with
  | nil => rfl
  | cons c cs ih => cases c <;> simp [shots, ih]

theorem Level.handleClick_effect {W : Type} (sys : LevelSystems W) (clientX clientY : Rat)
    (l : Level W) :
    (Level.handleClick sys clientX clientY l).state.calls = l.calls ++
      (match (sys.cast clientX clientY l.world).2 with
       | [] => [.cast]
       | hit :: _ => [.cast, .shoot hit.point]) ∧
    (Level.handleClick sys clientX clientY l).state.world =
      (match (sys.cast clientX clientY l.world).2 with
       | [] => (sys.cast clientX clientY l.world).1
       | hit :: _ => (sys.shoot hit.point (sys.cast clientX clientY l.world).1).1) ∧
    (∃ more, (Level.handleClick sys clientX clientY l).state.awaiting = l.awaiting ++ more ∧
      more.length ≤ 1) ∧
    (Level.handleClick sys clientX clientY l).state.maps = l.maps ∧
    (Level.handleClick sys clientX clientY l).state.objects = l.objects := by
  unfold Level.handleClick
  cases hc : (sys.cast clientX clientY l.world).2 with
  | nil => exact ⟨by simp [Outcome.ok], by simp [Outcome.ok], ⟨[], by simp [Outcome.ok]⟩, rfl, rfl⟩
  | cons hit rest =>
    simp only
    cases hs : (sys.shoot hit.point (sys.cast clientX clientY l.world).1).2 with
    | error e => exact ⟨by simp, rfl, ⟨[], by simp⟩, rfl, rfl⟩
    | ok h =>
      simp only
      split
      · exact ⟨by simp [Outcome.ok], rfl, ⟨[⟨h, hit.object⟩], by simp [Outcome.ok]⟩, rfl, rfl⟩
      · exact ⟨by simp [Outcome.ok], rfl, ⟨[], by simp [Outcome.ok]⟩, rfl, rfl⟩

/-- C6: every click handled by `Level.handleClick` makes the cast and, when the
cast is not empty, exactly one `shoot` call with the point of the first
intersection, whatever is still in flight; it suspends at most one continuation
and removes none.  So over any sequence of clicks the `shoot` requests are the
first points of the hitting clicks, in click order, and every continuation
suspended before is still suspended after. -/
theorem clicks_shoot_once_each {W : Type} (sys : LevelSystems W) (cs : List Click)
    (l : Level W) :
    (∀ x y : Rat, (Level.handleClick sys x y l).state.calls = l.calls ++
      (match (sys.cast x y l.world).2 with
       | [] => [.cast]
       | hit :: _ => [.cast, .shoot hit.point])) ∧
    shots (Level.clicks sys cs l).calls = shots l.calls ++ expectedShots sys cs l.world ∧
    ∃ more, (Level.clicks sys cs l).awaiting = l.awaiting ++ more := by
  refine ⟨fun x y => (Level.handleClick_effect sys x y l).1, ?_⟩
  induction cs generalizing l with
  | nil => exact ⟨by simp [Level.clicks, expectedShots], ⟨[], by simp [Level.clicks]⟩⟩
  | cons c cs ih =>
    obtain ⟨hcalls, hworld, ⟨m1, hm1, _⟩, _, _⟩ :=
      Level.handleClick_effect sys c.clientX c.clientY l
    obtain ⟨ih1, m2, hm2⟩ := ih (Level.handleClick sys c.clientX c.clientY l).state
    refine ⟨?_, m1 ++ m2, ?_⟩
    · simp only [Level.clicks, ih1, hcalls, hworld, expectedShots]
      cases (sys.cast c.clientX c.clientY l.world).2 with
      | nil => simp [shots_append, shots]
      | cons hit rest => simp [shots_append, shots]
    · simp only [Level.clicks, hm2, hm1, List.append_assoc]

/-! ### Resolutions -/

theorem Object3D.isElfTarget_iff (o : Object3D) :
    o.isElfTarget = true ↔
      o.isSprite = true ∧ (∃ c, o.clickable = some c ∧ c.type = some "elf") ∧
        ∃ url, o.assetUrl = some url := by
  unfold Object3D.isElfTarget
  cases hc : o.clickable with
  | none => simp
  | some c => simp [Option.isSome_iff_exists, and_assoc]

theorem Level.update_keeps {W : Type} (sys : LevelSystems W) (d : Rat) (l : Level W) :
    (Level.update sys d l).state.objects = l.objects ∧
    (Level.update sys d l).state.maps = l.maps ∧
    (Level.update sys d l).state.awaiting = l.awaiting ∧
    (Level.update sys d l).state.children = l.children := by
  unfold Level.update
  refine Outcome.andThen_state
    (fun s : Level W => s.objects = l.objects ∧ s.maps = l.maps ∧
      s.awaiting = l.awaiting ∧ s.children = l.children) _ _ ?_ ?_
  · exact ⟨rfl, rfl, rfl, rfl⟩
  · exact fun s hs => hs

theorem Level.updates_keeps {W : Type} (sys : LevelSystems W) (ds : List Rat) (l : Level W) :
    (Level.updates sys ds l).objects = l.objects ∧
    (Level.updates sys ds l).maps = l.maps ∧
    (Level.updates sys ds l).awaiting = l.awaiting ∧
    (Level.updates sys ds l).children = l.children := by
  induction ds generalizing l with
  | nil => exact ⟨rfl, rfl, rfl, rfl⟩
  | cons d ds ih =>
    obtain ⟨h1, h2, h3, h4⟩ := ih (Level.update sys d l).state
    obtain ⟨k1, k2, k3, k4⟩ := Level.update_keeps sys d l
    exact ⟨h1.trans k1, h2.trans k2, h3.trans k3, h4.trans k4⟩

theorem Level.fulfil_of_none_awaiting {W : Type} (sys : LevelSystems W) (h : Handle)
    (l : Level W) (hfresh : ∀ r ∈ l.awaiting, r.handle ≠ h) :
    Level.fulfil sys h l = l := by
  have h1 : (l.awaiting.filter fun r => r.handle = h) = [] := by
    simpa [List.filter_eq_nil_iff] using hfresh
  have h2 : (l.awaiting.filter fun r => ¬ r.handle = h) = l.awaiting := by
    simpa [List.filter_eq_self] using hfresh
  unfold Level.fulfil
  rw [h1, h2]
  rfl

theorem Level.fulfil_of_last_awaiting {W : Type} (sys : LevelSystems W) (h : Handle)
    (o : ObjId) (l : Level W) (before : List Resolution)
    (hl : l.awaiting = before ++ [⟨h, o⟩]) (hfresh : ∀ r ∈ before, r.handle ≠ h) :
    Level.fulfil sys h l = (Level.landed sys o { l with awaiting := before }).state := by
  have h1 : (before.filter fun r => r.handle = h) = [] := by
    simpa [List.filter_eq_nil_iff] using hfresh
  have h2 : (before.filter fun r => ¬ r.handle = h) = before := by
    simpa [List.filter_eq_self] using hfresh
  unfold Level.fulfil
  rw [hl, List.filter_append, List.filter_append, h1, h2]
  simp [Level.landAll]

/-- C7: a click that hits, whose `shoot` returns the promise `h` awaited by no
earlier continuation, followed by any number of update ticks and then by the
fulfilment of `h`.

* The condition of lines 46-49 is: the nearest hit is a Sprite, its
  `userData.clickable.type` is `'elf'`, and its `userData.assetUrl` is defined.
* Neither the click nor the ticks write a `material.map`.
* When the condition fails, fulfilment writes nothing and calls nothing.
* When it holds, `getElfImage` is called once, with the `assetUrl` whose first
  `@` is replaced by `_Holding@`; when it returns nothing, nothing is written;
  when it returns a texture, that texture becomes the `map` of the material of
  the nearest hit, and no other material is written.
* No object record is changed. -/
theorem elf_texture_swapped_on_landing {W : Type} (sys : LevelSystems W)
    (clientX clientY : Rat) (l : Level W) (hit : Intersection) (rest : List Intersection)
    (h : Handle) (ds : List Rat)
    (hcast : (sys.cast clientX clientY l.world).2 = hit :: rest)
    (hshoot : (sys.shoot hit.point (sys.cast clientX clientY l.world).1).2 = .ok h)
    (hfresh : ∀ r ∈ l.awaiting, r.handle ≠ h) :
    ((l.objects hit.object).isElfTarget = true ↔
      (l.objects hit.object).isSprite = true ∧
      (∃ c, (l.objects hit.object).clickable = some c ∧ c.type = some "elf") ∧
      ∃ url, (l.objects hit.object).assetUrl = some url) ∧
    (Level.handleClick sys clientX clientY l).state.calls =
      l.calls ++ [.cast, .shoot hit.point] ∧
    (Level.handleClick sys clientX clientY l).state.maps = l.maps ∧
    (Level.updates sys ds (Level.handleClick sys clientX clientY l).state).maps = l.maps ∧
    (Level.fulfil sys h
      (Level.updates sys ds (Level.handleClick sys clientX clientY l).state)).objects
        = l.objects ∧
    (match (if (l.objects hit.object).isElfTarget then (l.objects hit.object).assetUrl
            else none) with
     | none =>
       (Level.fulfil sys h
         (Level.updates sys ds (Level.handleClick sys clientX clientY l).state)).calls =
         (Level.updates sys ds (Level.handleClick sys clientX clientY l).state).calls ∧
       (Level.fulfil sys h
         (Level.updates sys ds (Level.handleClick sys clientX clientY l).state)).maps = l.maps
     | some url =>
       match sys.getElfImage (holdingUrl url) with
       | none =>
         (Level.fulfil sys h
           (Level.updates sys ds (Level.handleClick sys clientX clientY l).state)).calls =
           (Level.updates sys ds (Level.handleClick sys clientX clientY l).state).calls ++
             [.getElfImage (holdingUrl url)] ∧
         (Level.fulfil sys h
           (Level.updates sys ds (Level.handleClick sys clientX clientY l).state)).maps
             = l.maps
       | some tex =>
         (Level.fulfil sys h
           (Level.updates sys ds (Level.handleClick sys clientX clientY l).state)).calls =
           (Level.updates sys ds (Level.handleClick sys clientX clientY l).state).calls ++
             [.getElfImage (holdingUrl url), .setMap hit.object tex] ∧
         (Level.fulfil sys h
           (Level.updates sys ds (Level.handleClick sys clientX clientY l).state)).maps
             = Function.update l.maps (l.objects hit.object).material (some tex)) := by
  obtain ⟨hcalls, _, _, hmaps, hobjs⟩ := Level.handleClick_effect sys clientX clientY l
  obtain ⟨uobjs, umaps, uaw, _⟩ :=
    Level.updates_keeps sys ds (Level.handleClick sys clientX clientY l).state
  rw [hcast] at hcalls
  refine ⟨Object3D.isElfTarget_iff _, hcalls, hmaps, umaps.trans hmaps, ?_, ?_⟩
  · -- the object records
    cases helf : (l.objects hit.object).isElfTarget with
    | false =>
      have haw : (Level.handleClick sys clientX clientY l).state.awaiting = l.awaiting := by
        simp [Level.handleClick, hcast, hshoot, helf, Outcome.ok]
      rw [Level.fulfil_of_none_awaiting sys h _ (by rw [uaw, haw]; exact hfresh)]
      exact uobjs.trans hobjs
    | true =>
      have haw : (Level.handleClick sys clientX clientY l).state.awaiting =
          l.awaiting ++ [⟨h, hit.object⟩] := by
        simp [Level.handleClick, hcast, hshoot, helf, Outcome.ok]
      rw [Level.fulfil_of_last_awaiting sys h hit.object _ l.awaiting (uaw.trans haw) hfresh]
      unfold Level.landed
      simp only
      split
      · exact uobjs.trans hobjs
      · split
        · exact uobjs.trans hobjs
        · exact uobjs.trans hobjs
  · -- the calls and the materials
    cases helf : (l.objects hit.object).isElfTarget with
    | false =>
      have haw : (Level.handleClick sys clientX clientY l).state.awaiting = l.awaiting := by
        simp [Level.handleClick, hcast, hshoot, helf, Outcome.ok]
      rw [Level.fulfil_of_none_awaiting sys h _ (by rw [uaw, haw]; exact hfresh)]
      simp [umaps, hmaps]
    | true =>
      have haw : (Level.handleClick sys clientX clientY l).state.awaiting =
          l.awaiting ++ [⟨h, hit.object⟩] := by
        simp [Level.handleClick, hcast, hshoot, helf, Outcome.ok]
      obtain ⟨url, hurl⟩ := ((Object3D.isElfTarget_iff _).1 helf).2.2
      rw [Level.fulfil_of_last_awaiting sys h hit.object _ l.awaiting (uaw.trans haw) hfresh]
      simp only [if_true, hurl]
      unfold Level.landed
      simp only [uobjs, hobjs, hurl]
      cases himg : sys.getElfImage (holdingUrl url) with
      | none => simp [Outcome.ok, umaps, hmaps]
      | some tex => simp [Outcome.ok, umaps, hmaps]

/-- C7, evaluated: a click on elf 0 of the demo level, three ticks of 0.1 s, then
the present lands: material 10, the elf's, shows texture 7, the value
`getElfImage` returns for `Elf1_Holding@2x.png`. -/
theorem elf_texture_swapped_on_landing_witness :
    (Level.fulfil demoLevelSystems 0
      (Level.updates demoLevelSystems [1 / 10, 1 / 10, 1 / 10]
        (Level.handleClick demoLevelSystems 0 0 demoLevel).state)).maps
      = Function.update demoLevel.maps 10 (some 7) := by
  have h := elf_texture_swapped_on_landing demoLevelSystems 0 0 demoLevel
    ⟨0, ⟨0, 0, 5⟩, 5⟩ [⟨2, ⟨0, 0, 10⟩, 10⟩] 0 [1 / 10, 1 / 10, 1 / 10]
    (by simp [demoLevelSystems]) (by simp [demoLevelSystems, demoLevel])
    (by simp [demoLevel])
  have h6 := h.2.2.2.2.2
  have helf : (demoLevel.objects 0).isElfTarget = true := by decide
  have himg : demoLevelSystems.getElfImage (holdingUrl "Elf1@2x.png") = some 7 := by decide
  have hurl : (demoLevel.objects 0).assetUrl = some "Elf1@2x.png" := rfl
  simp only [helf, if_true, hurl, himg] at h6
  exact h6.2

/-- C8, refuted as stated: elf 0 of the demo level is clicked, then removed from the
scene, then the present lands.  The removed elf's material 10 had no texture and
now has texture 7. -/
theorem removed_target_is_still_mutated :
    0 ∉ (Level.removeFromScene 0
          (Level.handleClick demoLevelSystems 0 0 demoLevel).state).children ∧
    (Level.removeFromScene 0
      (Level.handleClick demoLevelSystems 0 0 demoLevel).state).maps 10 = none ∧
    (Level.fulfil demoLevelSystems 0
      (Level.removeFromScene 0
        (Level.handleClick demoLevelSystems 0 0 demoLevel).state)).maps 10 = some 7 := by
  refine ⟨by decide, rfl, ?_⟩
  decide

/-- C8, as the code has it: the continuation never looks at the scene graph.  For
a target that was removed from the scene and whose `assetUrl` is still defined it
does not throw, it leaves the scene graph as it is, and it replaces the `map` of
the removed object's material exactly when `getElfImage` returns a texture. -/
theorem landing_ignores_removal {W : Type} (sys : LevelSystems W) (o : ObjId) (l : Level W)
    (url : String) (hurl : (l.objects o).assetUrl = some url) :
    o ∉ (Level.removeFromScene o l).children ∧
    (Level.landed sys o (Level.removeFromScene o l)).thrown = none ∧
    (Level.landed sys o (Level.removeFromScene o l)).state.children =
      (Level.removeFromScene o l).children ∧
    (Level.landed sys o (Level.removeFromScene o l)).state.maps =
      (match sys.getElfImage (holdingUrl url) with
       | none => l.maps
       | some tex => Function.update l.maps (l.objects o).material (some tex)) := by
  refine ⟨by simp [Level.removeFromScene], ?_⟩
  unfold Level.landed
  simp only [Level.removeFromScene, hurl]
  cases sys.getElfImage (holdingUrl url) with
  | none => exact ⟨rfl, rfl, rfl⟩
  | some tex => exact ⟨rfl, rfl, rfl⟩

/-- C8, evaluated: elf 0 is removed from the demo level and the continuation for
it runs. -/
theorem landing_ignores_removal_witness :
    (Level.landed demoLevelSystems 0 (Level.removeFromScene 0 demoLevel)).thrown = none ∧
    (Level.landed demoLevelSystems 0 (Level.removeFromScene 0 demoLevel)).state.maps 10
      = some 7 := by
  have h := landing_ignores_removal demoLevelSystems 0 demoLevel "Elf1@2x.png" rfl
  have himg : demoLevelSystems.getElfImage (holdingUrl "Elf1@2x.png") = some 7 := by decide
  refine ⟨h.2.1, ?_⟩
  rw [h.2.2.2, himg]
  decide

/-! ### The lifecycle -/

/-- C11: `pause()` leaves `paused = true` and `previousSeconds = null` and touches
nothing else: the world (the scene, every system, the scoreboard), the queue of
frame callbacks and the log are as before. -/
theorem pause_sets_flags_only {W : Type} (g : Game W) :
    g.pause.paused = true ∧ g.pause.previousSeconds = none ∧
    g.pause.world = g.world ∧ g.pause.started = g.started ∧
    g.pause.pending = g.pending ∧ g.pause.calls = g.calls :=
  ⟨rfl, rfl, rfl, rfl, rfl, rfl⟩

/-- C12, refuted as stated: after `start` and `pause()` the game is paused and the
frame callback that the first tick requested is still queued. -/
theorem paused_with_callback_pending :
    (Game.run tallySystems [.start 2, .pause] (Game.construct 0 1)).paused = true ∧
    (Game.run tallySystems [.start 2, .pause] (Game.construct 0 1)).pending = 1 :=
  ⟨rfl, rfl⟩

/-- C12, as the code has it: `pause()` does not touch the queue of frame
callbacks, and while `paused = true` nothing is added to it: a queued callback
that runs returns at line 92, so it makes no call, changes neither field nor
world, requests no further frame, and the queue shrinks by one for each. -/
theorem paused_callbacks_only_drain {W : Type} (sys : Systems W) (g : Game W)
    (h : g.paused = true) (nows : List Rat) :
    g.pause.pending = g.pending ∧
    (Game.frames sys nows g).pending = g.pending - nows.length ∧
    (Game.frames sys nows g).calls = g.calls ∧
    (Game.frames sys nows g).world = g.world ∧
    (Game.frames sys nows g).paused = true ∧
    (Game.frames sys nows g).previousSeconds = g.previousSeconds := by
  rw [Game.frames_of_paused sys nows g h]
  exact ⟨rfl, rfl, rfl, rfl, h, rfl⟩

/-- C12, evaluated: the callback left queued by `start` and `pause()` runs and the
queue is empty, the log unchanged. -/
theorem paused_callbacks_only_drain_witness :
    (Game.frames tallySystems [3]
      (Game.run tallySystems [.start 2, .pause] (Game.construct 0 1))).pending = 1 - 1 ∧
    (Game.frames tallySystems [3]
      (Game.run tallySystems [.start 2, .pause] (Game.construct 0 1))).calls =
      (Game.run tallySystems [.start 2, .pause] (Game.construct 0 1)).calls :=
  have h := paused_callbacks_only_drain tallySystems
    (Game.run tallySystems [.start 2, .pause] (Game.construct 0 1)) rfl [3]
  ⟨h.2.1, h.2.2.1⟩

/-- C13, at the failing input: a game constructed at clock 100 and started at 101
has a scene of age 1 and 1 s on the scoreboard when it is paused.  `restart()` at
clock 103 logs `TODO` and ticks the same scene and systems: the scene is not
created anew (its age goes on from 1, to 104) and `create` is not consulted.
With `paused = false`, `restart()` only logs its warning. -/
theorem restart_keeps_old_scene :
    (Game.run agingSystems [.start 101, .pause] (Game.construct (0, 0) 100)).world = (1, 1) ∧
    (Game.restart agingSystems 103
      (Game.run agingSystems [.start 101, .pause] (Game.construct (0, 0) 100))).state.world
      = (104, 104) ∧
    (Game.restart agingSystems 103
      (Game.run agingSystems [.start 101, .pause] (Game.construct (0, 0) 100))).state.calls.drop 6
      = [.log "TODO", .sceneUpdate 103, .elvesUpdate 103, .presentUpdate 103,
         .scoreboardOnFrame 103, .render, .requestAnimationFrame] ∧
    (Game.restart agingSystems 103
      (Game.run agingSystems [.start 101] (Game.construct (0, 0) 100))).state =
      { Game.run agingSystems [.start 101] (Game.construct (0, 0) 100) with
        calls := (Game.run agingSystems [.start 101] (Game.construct (0, 0) 100)).calls ++
          [.warn "Game must be paused before it can be restarted"] } := by
  refine ⟨?_, ?_, ?_, ?_⟩ <;>
    simp [Game.run, Game.step, Game.start, Game.restart, Game.mainLoop,
      Game.update, Game.render, Game.invoke, Game.note, Game.pause, Game.construct,
      Outcome.andThen, Outcome.ok, agingSystems, Method.skip] <;> norm_num

/-- C16, at the failing input: `start` at clock 2 queues one frame callback;
`pause()` leaves it queued; `resume()` at clock 3, before the host has run it,
ticks and queues a second one.  When the host then runs both in the frame at
clock 4 each of them updates, renders and requests a frame again: the update
phase has run twice in that frame and two callbacks are queued for the next. -/
theorem resume_before_frame_doubles_the_loop :
    (Game.run tallySystems [.start 2, .pause, .resume 3 3] (Game.construct 0 1)).pending = 2 ∧
    (Game.run tallySystems [.start 2, .pause, .resume 3 3, .frame 4, .frame 4]
      (Game.construct 0 1)).pending = 2 ∧
    (Game.run tallySystems [.start 2, .pause, .resume 3 3, .frame 4, .frame 4]
      (Game.construct 0 1)).calls.drop 12 =
      [.sceneUpdate 1, .elvesUpdate 1, .presentUpdate 1, .scoreboardOnFrame 1, .render,
       .requestAnimationFrame,
       .sceneUpdate 0, .elvesUpdate 0, .presentUpdate 0, .scoreboardOnFrame 0, .render,
       .requestAnimationFrame] := by
  refine ⟨rfl, rfl, ?_⟩
  simp [Game.run, Game.step, Game.start, Game.resume, Game.frame, Game.mainLoop,
    Game.update, Game.render, Game.invoke, Game.note, Game.pause, Game.construct,
    Outcome.andThen, Outcome.ok, tallySystems, Method.skip]
  norm_num

/-! ### Exceptions in the update phase -/

theorem outcomeAt_lt_length {W : Type} (ms : List (Call × Method W)) (w : W) (k : Nat)
    (e : String) (hk : outcomeAt ms w k = some e) : k < ms.length := by
  induction ms generalizing w k with
  | nil => simp [outcomeAt] at hk
  | cons m ms ih =>
    cases k with
    | zero => simp
    | succ k =>
      simp only [outcomeAt] at hk
      simpa using ih _ _ hk

theorem ThrowsAt.lt_length {W : Type} {ms : List (Call × Method W)} {w : W} {k : Nat}
    {e : String} (h : ThrowsAt ms w k e) : k < ms.length :=
  outcomeAt_lt_length ms w k e h.2

/-- C14: when call number `k` (from 0) of an update phase is the first to throw,
the calls up to and including it have been made, in order, none of the later
ones is made, and the exception leaves `update()`.  In the railroad `Game.update`
also `previousSeconds` keeps its value.  The same holds for `Level.update`. -/
theorem update_aborts_at_first_throw {W V : Type} (sys : Systems W) (lsys : LevelSystems V)
    (nowSeconds deltaSeconds : Rat) (g : Game W) (l : Level V) (k j : Nat) (e f : String)
    (hstarted : g.started = true)
    (hg : ThrowsAt (Game.phase sys (nowSeconds - g.previousSeconds.getD 0)) g.world k e)
    (hl : ThrowsAt (Level.phase lsys deltaSeconds) l.world j f) :
    (g.update sys nowSeconds).thrown = some e ∧
    (g.update sys nowSeconds).state.calls = g.calls ++
      [Call.sceneUpdate (nowSeconds - g.previousSeconds.getD 0),
       Call.elvesUpdate (nowSeconds - g.previousSeconds.getD 0),
       Call.presentUpdate (nowSeconds - g.previousSeconds.getD 0),
       Call.scoreboardOnFrame (nowSeconds - g.previousSeconds.getD 0)].take (k + 1) ∧
    (g.update sys nowSeconds).state.previousSeconds = g.previousSeconds ∧
    (l.update lsys deltaSeconds).thrown = some f ∧
    (l.update lsys deltaSeconds).state.calls = l.calls ++
      [Call.sceneUpdate deltaSeconds, Call.presentUpdate deltaSeconds].take (j + 1) := by
  have hk := hg.lt_length
  have hj := hl.lt_length
  obtain ⟨hgb, hgk⟩ := hg
  obtain ⟨hlb, hlj⟩ := hl
  simp only [Game.phase, Level.phase, List.length_cons, List.length_nil] at hk hj
  refine ⟨?_, ?_, ?_, ?_, ?_⟩
  · rcases k with _ | _ | _ | _ | k
    · simp [outcomeAt, Game.phase] at hgk
      simp [Game.update, hstarted, Game.invoke, Outcome.andThen, hgk]
    · have h0 := hgb 0 (by omega)
      simp [outcomeAt, Game.phase] at hgk h0
      simp [Game.update, hstarted, Game.invoke, Outcome.andThen, hgk, h0]
    · have h0 := hgb 0 (by omega)
      have h1 := hgb 1 (by omega)
      simp [outcomeAt, Game.phase] at hgk h0 h1
      simp [Game.update, hstarted, Game.invoke, Outcome.andThen, hgk, h0, h1]
    · have h0 := hgb 0 (by omega)
      have h1 := hgb 1 (by omega)
      have h2 := hgb 2 (by omega)
      simp [outcomeAt, Game.phase] at hgk h0 h1 h2
      simp [Game.update, hstarted, Game.invoke, Outcome.andThen, hgk, h0, h1, h2]
    · omega
  · rcases k with _ | _ | _ | _ | k
    · simp [outcomeAt, Game.phase] at hgk
      simp [Game.update, hstarted, Game.invoke, Outcome.andThen, hgk]
    · have h0 := hgb 0 (by omega)
      simp [outcomeAt, Game.phase] at hgk h0
      simp [Game.update, hstarted, Game.invoke, Outcome.andThen, hgk, h0]
    · have h0 := hgb 0 (by omega)
      have h1 := hgb 1 (by omega)
      simp [outcomeAt, Game.phase] at hgk h0 h1
      simp [Game.update, hstarted, Game.invoke, Outcome.andThen, hgk, h0, h1]
    · have h0 := hgb 0 (by omega)
      have h1 := hgb 1 (by omega)
      have h2 := hgb 2 (by omega)
      simp [outcomeAt, Game.phase] at hgk h0 h1 h2
      simp [Game.update, hstarted, Game.invoke, Outcome.andThen, hgk, h0, h1, h2]
    · omega
  · rcases k with _ | _ | _ | _ | k
    · simp [outcomeAt, Game.phase] at hgk
      simp [Game.update, hstarted, Game.invoke, Outcome.andThen, hgk]
    · have h0 := hgb 0 (by omega)
      simp [outcomeAt, Game.phase] at hgk h0
      simp [Game.update, hstarted, Game.invoke, Outcome.andThen, hgk, h0]
    · have h0 := hgb 0 (by omega)
      have h1 := hgb 1 (by omega)
      simp [outcomeAt, Game.phase] at hgk h0 h1
      simp [Game.update, hstarted, Game.invoke, Outcome.andThen, hgk, h0, h1]
    · have h0 := hgb 0 (by omega)
      have h1 := hgb 1 (by omega)
      have h2 := hgb 2 (by omega)
      simp [outcomeAt, Game.phase] at hgk h0 h1 h2
      simp [Game.update, hstarted, Game.invoke, Outcome.andThen, hgk, h0, h1, h2]
    · omega
  · rcases j with _ | _ | j
    · simp [outcomeAt, Level.phase] at hlj
      simp [Level.update, Level.invoke, Outcome.andThen, hlj]
    · have h0 := hlb 0 (by omega)
      simp [outcomeAt, Level.phase] at hlj h0
      simp [Level.update, Level.invoke, Outcome.andThen, hlj, h0]
    · omega
  · rcases j with _ | _ | j
    · simp [outcomeAt, Level.phase] at hlj
      simp [Level.update, Level.invoke, Outcome.andThen, hlj]
    · have h0 := hlb 0 (by omega)
      simp [outcomeAt, Level.phase] at hlj h0
      simp [Level.update, Level.invoke, Outcome.andThen, hlj, h0]
    · omega

/-- C14, evaluated: with one scene update behind it, the faulty game's elves
system throws in the next update, after the scene's update and before the
present system's; the faulty level's present system throws after the scene's
update. -/
theorem update_aborts_at_first_throw_witness :
    (Game.update faultySystems 3
      { Game.construct (0 : Nat) 1 with started := true, world := 1 }).thrown = some "boom" ∧
    (Game.update faultySystems 3
      { Game.construct (0 : Nat) 1 with started := true, world := 1 }).state.calls =
      [] ++ [Call.sceneUpdate (3 - (some (1 : Rat)).getD 0),
       Call.elvesUpdate (3 - (some (1 : Rat)).getD 0),
       Call.presentUpdate (3 - (some (1 : Rat)).getD 0),
       Call.scoreboardOnFrame (3 - (some (1 : Rat)).getD 0)].take (1 + 1) ∧
    (Level.update faultyLevelSystems (1 / 10) { demoLevel with world := 0 }).thrown
      = some "boom" :=
  have h := update_aborts_at_first_throw faultySystems faultyLevelSystems 3 (1 / 10)
    { Game.construct (0 : Nat) 1 with started := true, world := 1 }
    { demoLevel with world := 0 } 1 1 "boom" "boom" rfl
    ⟨fun i hi => by
        have hi0 : i = 0 := by omega
        subst hi0
        rfl, rfl⟩
    ⟨fun i hi => by
        have hi0 : i = 0 := by omega
        subst hi0
        rfl, rfl⟩
  ⟨h.1, h.2.1, h.2.2.2.1⟩

theorem Outcome.andThen_of_throws {σ : Type} (r : Outcome σ) (k : σ → Outcome σ) (e : String)
    (hk : ∀ s, (k s).thrown = none) (h : (r.andThen k).thrown = some e) :
    r.andThen k = ⟨r.state, some e⟩ := by
  cases hr : r.thrown with
  | none =>
    rw [Outcome.andThen_of_none r k hr, hk] at h
    cases h
  | some e' =>
    rw [Outcome.andThen_of_some r k e' hr] at h ⊢
    simp only [Option.some.injEq] at h
    rw [h]

/-- What an update phase cut short by an exception leaves behind. -/
theorem Game.update_of_throws {W : Type} (sys : Systems W) (nowSeconds : Rat) (g : Game W)
    (e : String) (h : (g.update sys nowSeconds).thrown = some e) :
    (g.update sys nowSeconds).state.previousSeconds = g.previousSeconds ∧
    (g.update sys nowSeconds).state.paused = g.paused ∧
    (g.update sys nowSeconds).state.pending = g.pending ∧
    ∃ made, (g.update sys nowSeconds).state.calls = g.calls ++ made ∧
      Call.render ∉ made ∧ Call.requestAnimationFrame ∉ made := by
  obtain ⟨q, hq⟩ : ∃ q : Game W → Prop, q = fun s =>
      s.previousSeconds = g.previousSeconds ∧ s.paused = g.paused ∧ s.pending = g.pending ∧
        ∃ made, s.calls = g.calls ++ made ∧
          Call.render ∉ made ∧ Call.requestAnimationFrame ∉ made := ⟨_, rfl⟩
  have hinv : ∀ (s : Game W) (c : Call) (f : Method W),
      c ≠ Call.render → c ≠ Call.requestAnimationFrame → q s → q (s.invoke c f).state := by
    subst hq
    rintro s c f hc1 hc2 ⟨h1, h2, h3, made, h4, h5, h6⟩
    refine ⟨h1, h2, h3, made ++ [c], ?_, ?_, ?_⟩
    · simp [Game.invoke, h4]
    · simp [h5, hc1.symm]
    · simp [h6, hc2.symm]
  have h0 : q g := by
    subst hq
    exact ⟨rfl, rfl, rfl, [], by simp, by simp, by simp⟩
  suffices hgoal : q (g.update sys nowSeconds).state by
    subst hq
    exact hgoal
  unfold Game.update at h ⊢
  cases hs : g.started with
  | false => simpa [hs] using h0
  | true =>
    simp only [hs, if_true] at h ⊢
    rw [Outcome.andThen_of_throws _ _ e (fun _ => rfl) h]
    refine Outcome.andThen_state q _ _ (Outcome.andThen_state q _ _
      (Outcome.andThen_state q _ _ ?_ ?_) ?_) ?_
    · exact hinv g _ _ (by simp) (by simp) h0
    · exact fun s hs => hinv s _ _ (by simp) (by simp) hs
    · exact fun s hs => hinv s _ _ (by simp) (by simp) hs
    · exact fun s hs => hinv s _ _ (by simp) (by simp) hs

/-- A tick of a running game that returns. -/
theorem Game.mainLoop_of_returns {W : Type} (sys : Systems W) (n : Rat) (g : Game W)
    (hrun : g.paused = false) (hret : (Game.mainLoop sys n g).thrown = none) :
    (Game.mainLoop sys n g).state.calls = g.calls ++
      [.sceneUpdate (n - g.previousSeconds.getD 0), .elvesUpdate (n - g.previousSeconds.getD 0),
       .presentUpdate (n - g.previousSeconds.getD 0),
       .scoreboardOnFrame (n - g.previousSeconds.getD 0), .render, .requestAnimationFrame] ∧
    (Game.mainLoop sys n g).state.previousSeconds = some n ∧
    (Game.mainLoop sys n g).state.pending = g.pending + 1 ∧
    (Game.mainLoop sys n g).state.paused = false := by
  unfold Game.mainLoop at hret ⊢
  simp only [hrun, Bool.false_eq_true, if_false] at hret ⊢
  obtain ⟨h2, _⟩ := Outcome.andThen_thrown_none _ _ hret
  obtain ⟨h1, h2'⟩ := Outcome.andThen_thrown_none _ _ h2
  obtain ⟨hs, hc, hp, hpa, hpe, hst⟩ := Game.gameUpdate_of_returns sys n g h1
  rw [Outcome.andThen_of_none _ _ h2, Outcome.andThen_of_none _ _ h1]
  simp [Game.render, hst, Game.invoke, Outcome.ok, hc, hp, hpa, hpe, hrun]

/-- C17: when a call inside `update()` throws during a tick of a running game,
the exception leaves `mainLoop()`: render is not called, no frame callback is
requested or queued, `previousSeconds` keeps its value and `paused` stays
`false`.  In that state `resume()` and `restart()` only log their warning.
`pause()` followed by `resume()` does run a tick, and when that tick returns a
frame callback is queued again. -/
theorem loop_stops_when_update_throws {W : Type} (sys : Systems W) (n t u : Rat) (g : Game W)
    (e : String) (hrun : g.paused = false) (hthrow : (g.update sys n).thrown = some e) :
    (Game.mainLoop sys n g).thrown = some e ∧
    (∃ made, (Game.mainLoop sys n g).state.calls = g.calls ++ made ∧
      Call.render ∉ made ∧ Call.requestAnimationFrame ∉ made) ∧
    (Game.mainLoop sys n g).state.previousSeconds = g.previousSeconds ∧
    (Game.mainLoop sys n g).state.pending = g.pending ∧
    (Game.mainLoop sys n g).state.paused = false ∧
    Game.resume sys t u (Game.mainLoop sys n g).state =
      Outcome.ok { (Game.mainLoop sys n g).state with
        calls := (Game.mainLoop sys n g).state.calls ++
          [Call.warn "Game must be paused before it can be resumed"] } ∧
    Game.restart sys u (Game.mainLoop sys n g).state =
      Outcome.ok { (Game.mainLoop sys n g).state with
        calls := (Game.mainLoop sys n g).state.calls ++
          [Call.warn "Game must be paused before it can be restarted"] } ∧
    ((Game.resume sys t u (Game.mainLoop sys n g).state.pause).thrown = none →
      (Game.resume sys t u (Game.mainLoop sys n g).state.pause).state.pending = g.pending + 1 ∧
      (Game.resume sys t u (Game.mainLoop sys n g).state.pause).state.paused = false ∧
      (Game.resume sys t u (Game.mainLoop sys n g).state.pause).state.calls =
        (Game.mainLoop sys n g).state.calls ++
          [.sceneUpdate (u - t), .elvesUpdate (u - t), .presentUpdate (u - t),
           .scoreboardOnFrame (u - t), .render, .requestAnimationFrame]) := by
  obtain ⟨hprev, hpaused, hpending, hmade⟩ := Game.update_of_throws sys n g e hthrow
  have hloop : Game.mainLoop sys n g = ⟨(g.update sys n).state, some e⟩ := by
    unfold Game.mainLoop
    simp only [hrun, Bool.false_eq_true, if_false]
    rw [Outcome.andThen_of_some (g.update sys n) _ e hthrow]
    rfl
  have hp : (Game.mainLoop sys n g).state.paused = false := by
    rw [hloop]
    exact hpaused.trans hrun
  refine ⟨by rw [hloop], by rw [hloop]; exact hmade, by rw [hloop]; exact hprev,
    by rw [hloop]; exact hpending, hp, ?_, ?_, ?_⟩
  · simp [Game.resume, hp, Game.note]
  · simp [Game.restart, hp, Game.note]
  · intro hret
    have hres : Game.resume sys t u (Game.mainLoop sys n g).state.pause =
        Game.mainLoop sys u
          { (Game.mainLoop sys n g).state with paused := false, previousSeconds := some t } := by
      simp [Game.resume, Game.pause]
    rw [hres] at hret ⊢
    obtain ⟨hc, _, hpe, hpa⟩ := Game.mainLoop_of_returns sys u _ rfl hret
    refine ⟨?_, hpa, ?_⟩
    · rw [hpe]
      show (Game.mainLoop sys n g).state.pending + 1 = g.pending + 1
      rw [hloop]
      simp [hpending]
    · rw [hc]
      simp

/-- C17, evaluated: the faulty game's second tick throws in the elves system;
`resume()` is then refused, and `pause()` followed by `resume()` ticks again. -/
theorem loop_stops_when_update_throws_witness :
    (Game.mainLoop faultySystems 3
      { Game.construct (0 : Nat) 1 with started := true, world := 1 }).thrown = some "boom" ∧
    (Game.mainLoop faultySystems 3
      { Game.construct (0 : Nat) 1 with started := true, world := 1 }).state.pending = 0 ∧
    (Game.resume faultySystems 5 6 (Game.mainLoop faultySystems 3
      { Game.construct (0 : Nat) 1 with started := true, world := 1 }).state.pause).state.pending
      = 0 + 1 :=
  have h := loop_stops_when_update_throws faultySystems 3 5 6
    { Game.construct (0 : Nat) 1 with started := true, world := 1 } "boom" rfl rfl
  ⟨h.1, h.2.2.2.1, (h.2.2.2.2.2.2.2 rfl).1⟩

/-! ### The ray cast -/

/-- C15: for every scene and input point the result of the cast is sorted by
non-decreasing distance, so its first element is no farther than any other; it
holds exactly the intersections of the ray with the entities of the scene; and
it is empty when the ray meets no entity, in particular in an empty scene. -/
theorem cast_sorted_nearest_first (scene : List Target) (clientX clientY : Rat) :
    List.Sorted (fun a b : Intersection => a.distance ≤ b.distance)
      (castModel scene clientX clientY) ∧
    (∀ first rest, castModel scene clientX clientY = first :: rest →
      ∀ i ∈ castModel scene clientX clientY, first.distance ≤ i.distance) ∧
    (castModel scene clientX clientY).Perm
      (scene.filterMap fun t =>
        (t.meet clientX clientY).map fun pd => (⟨t.object, pd.1, pd.2⟩ : Intersection)) ∧
    ((∀ t ∈ scene, t.meet clientX clientY = none) → castModel scene clientX clientY = []) ∧
    castModel [] clientX clientY = [] := by
  haveI : IsTotal Intersection (fun a b => a.distance ≤ b.distance) :=
    ⟨fun a b => le_total a.distance b.distance⟩
  haveI : IsTrans Intersection (fun a b => a.distance ≤ b.distance) :=
    ⟨fun _ _ _ hab hbc => le_trans hab hbc⟩
  have hsorted : List.Sorted (fun a b : Intersection => a.distance ≤ b.distance)
      (castModel scene clientX clientY) := List.sorted_insertionSort _ _
  refine ⟨hsorted, ?_, List.perm_insertionSort _ _, ?_, rfl⟩
  · intro first rest hcast i hi
    rw [hcast] at hsorted hi
    rcases List.mem_cons.1 hi with h | h
    · rw [h]
    · exact List.rel_of_sorted_cons hsorted i h
  · intro hnone
    have hempty : (scene.filterMap fun t =>
        (t.meet clientX clientY).map fun pd => (⟨t.object, pd.1, pd.2⟩ : Intersection)) = [] := by
      rw [List.filterMap_eq_nil_iff]
      intro t ht
      rw [hnone t ht]
      rfl
    unfold castModel
    rw [hempty]
    rfl

/-- C15, evaluated: with a target at distance 10 listed before one at distance 5
on the ray, the cast returns the one at 5 and then the one at 10. -/
theorem cast_sorted_nearest_first_witness :
    castModel demoScene 0 0 = [⟨0, ⟨0, 0, 5⟩, 5⟩, ⟨1, ⟨0, 0, 10⟩, 10⟩] ∧
    List.Sorted (fun a b : Intersection => a.distance ≤ b.distance) (castModel demoScene 0 0) :=
  ⟨by decide, (cast_sorted_nearest_first demoScene 0 0).1⟩

/-! ### The toolbar -/

theorem Toolbar.offsetWidthAt_of_lt (t : Toolbar) (i : Nat) (h : i < t.items.length) :
    t.offsetWidthAt (i : Int) = some t.items[i] := by
  simp [Toolbar.offsetWidthAt, List.getElem?_eq_getElem h]

theorem widthBefore_succ (items : List Int) (n : Nat) (h : n < items.length) :
    widthBefore items (n + 1) = widthBefore items n + items[n] := by
  simp [widthBefore, List.sum_take_succ items n h]

/-- The three ways an `onArrowDown` can end when the index is within the items:
nothing changes; a move to the right by the width of the current item; a move to
the left by the width of the item before. -/
theorem Toolbar.onArrowDown_cases (a : String) (t : Toolbar) (c : Nat)
    (hc : t.currentIndex = (c : Int)) (hlt : c < t.items.length) :
    Toolbar.onArrowDown a t = Outcome.ok t ∨
    (a ≠ "left" ∧ ¬ t.offsetXSlider > 0 ∧ c + 1 < t.items.length ∧
      Toolbar.onArrowDown a t =
        Outcome.ok { t with x := t.x - t.items[c], currentIndex := (c : Int) + 1 }) ∨
    (a = "left" ∧ ¬ t.offsetXSlider > 0 ∧ ∃ b, ∃ h : b < t.items.length, c = b + 1 ∧
      Toolbar.onArrowDown a t =
        Outcome.ok { t with x := t.x + t.items[b], currentIndex := (b : Int) }) := by
  have hlast : t.offsetWidthAt ((t.items.length : Int) - 1) =
      some (t.items[t.items.length - 1]) := by
    have h := Toolbar.offsetWidthAt_of_lt t (t.items.length - 1) (by omega)
    rw [← h]
    congr 1
    omega
  unfold Toolbar.onArrowDown
  by_cases hoff : t.offsetXSlider > 0
  · left
    simp [hoff]
  · rw [if_neg hoff]
    by_cases ha : a = "left"
    · simp only [ha, if_true]
      by_cases hneg : t.currentIndex - 1 < 0
      · left
        simp [hneg]
      · simp only [hneg, if_false]
        have hne : ¬ t.currentIndex - 1 = (t.items.length : Int) - 1 := by omega
        simp only [hne, if_false, hlast]
        obtain ⟨b, hb⟩ : ∃ b : Nat, c = b + 1 := ⟨c - 1, by omega⟩
        have hbl : b < t.items.length := by omega
        have hidx : t.currentIndex - 1 = (b : Int) := by omega
        right; right
        refine ⟨trivial, hoff, b, hbl, hb, ?_⟩
        rw [hidx, Toolbar.offsetWidthAt_of_lt t b hbl]
        simp [Outcome.ok, hidx.symm]
        omega
    · simp only [ha, if_false]
      have hnn : ¬ t.currentIndex < 0 := by omega
      simp only [hnn, if_false]
      by_cases hend : t.currentIndex = (t.items.length : Int) - 1
      · left
        simp [hend]
      · simp only [hend, if_false, hlast]
        by_cases hfar : t.x < t.offsetXSlider - t.items[t.items.length - 1]
        · left
          simp [hfar]
        · have hcl : c + 1 < t.items.length := by omega
          right; left
          refine ⟨ha, hoff, hcl, ?_⟩
          simp only [hfar, false_and, if_false]
          rw [hc, Toolbar.offsetWidthAt_of_lt t c hlt]
          simp [Outcome.ok]
          omega

/-- A left arrow on an item that is not the first moves one item back. -/
theorem Toolbar.onArrowDown_left_of_succ (t : Toolbar) (b : Nat)
    (hoff : ¬ t.offsetXSlider > 0) (hc : t.currentIndex = (b : Int) + 1)
    (hlt : b + 1 < t.items.length) :
    Toolbar.onArrowDown "left" t =
      Outcome.ok { t with x := t.x + t.items[b], currentIndex := (b : Int) } := by
  rcases Toolbar.onArrowDown_cases "left" t (b + 1) (by simpa using hc) hlt with h | h | h
  · -- the handler cannot have returned early
    exfalso
    have hlast : t.offsetWidthAt ((t.items.length : Int) - 1) =
        some (t.items[t.items.length - 1]) := by
      have h' := Toolbar.offsetWidthAt_of_lt t (t.items.length - 1) (by omega)
      rw [← h']
      congr 1
      omega
    have hneg : ¬ t.currentIndex - 1 < 0 := by omega
    have hne : ¬ t.currentIndex - 1 = (t.items.length : Int) - 1 := by omega
    have hidx : t.currentIndex - 1 = (b : Int) := by omega
    unfold Toolbar.onArrowDown at h
    rw [if_neg hoff] at h
    simp only [if_true, hneg, if_false, hne, hlast] at h
    rw [hidx, Toolbar.offsetWidthAt_of_lt t b (by omega)] at h
    simp [Outcome.ok] at h
    have h2 := congrArg Toolbar.currentIndex h
    simp at h2
  · exact absurd rfl h.1
  · obtain ⟨_, _, b', hb', hbb, h⟩ := h
    have hb : b = b' := by omega
    subst hb
    exact h

theorem Toolbar.onArrowDown_inv (items : List Int) (a : String) (t : Toolbar)
    (h : Toolbar.Inv items t) :
    Toolbar.Inv items (Toolbar.onArrowDown a t).state ∧
    (Toolbar.onArrowDown a t).thrown = none := by
  obtain ⟨hitems, c, hc, hlt, hx⟩ := h
  subst hitems
  rcases Toolbar.onArrowDown_cases a t c hc hlt with h | ⟨_, _, hcl, h⟩ | ⟨_, _, b, hb, hcb, h⟩
  · rw [h]
    exact ⟨⟨rfl, c, hc, hlt, hx⟩, rfl⟩
  · rw [h]
    refine ⟨⟨rfl, c + 1, by simp [Outcome.ok], hcl, ?_⟩, rfl⟩
    simp only [Outcome.ok]
    rw [widthBefore_succ t.items c hlt, hx]
    ring
  · rw [h]
    refine ⟨⟨rfl, b, rfl, hb, ?_⟩, rfl⟩
    simp only [Outcome.ok]
    rw [hx, hcb, widthBefore_succ t.items b hb]
    ring

theorem Toolbar.arrows_inv (items : List Int) (events : List String) (t : Toolbar)
    (h : Toolbar.Inv items t) : Toolbar.Inv items (Toolbar.arrows events t) := by
  induction events generalizing t with
  | nil => exact h
  | cons a as ih => exact ih _ (Toolbar.onArrowDown_inv items a t h).1

theorem Toolbar.setUnits_inv (t : Toolbar) (hne : t.items ≠ []) :
    Toolbar.Inv t.items t.setUnits :=
  ⟨rfl, 0, rfl, List.length_pos.2 hne, by simp [Toolbar.setUnits, widthBefore]⟩

theorem widthBefore_pos (items : List Int) (c : Nat) (hpos : ∀ w ∈ items, 0 < w)
    (hc : 0 < c) (hne : items ≠ []) : 0 < widthBefore items c := by
  unfold widthBefore
  apply List.sum_pos
  · exact fun w hw => hpos w (List.mem_of_mem_take hw)
  · cases items with
    | nil => exact absurd rfl hne
    | cons w ws =>
      cases c with
      | zero => omega
      | succ c => simp

/-- What the invariant gives for one state. -/
theorem Toolbar.inv_facts (items : List Int) (t : Toolbar) (h : Toolbar.Inv items t) :
    0 ≤ t.currentIndex ∧ t.currentIndex ≤ (items.length : Int) - 1 ∧
    t.x = - widthBefore items t.currentIndex.toNat ∧
    (t.currentIndex = 0 → t.x = 0) ∧
    ((∀ w ∈ items, 0 < w) → t.x = 0 → t.currentIndex = 0) ∧
    (∀ a, (Toolbar.onArrowDown a t).thrown = none) ∧
    ((Toolbar.onArrowDown "right" t).state.currentIndex = t.currentIndex + 1 →
      (Toolbar.onArrowDown "left" (Toolbar.onArrowDown "right" t).state).state = t) := by
  have hstep := fun a => (Toolbar.onArrowDown_inv items a t h).2
  obtain ⟨hitems, c, hc, hlt, hx⟩ := h
  have htoNat : t.currentIndex.toNat = c := by omega
  refine ⟨by omega, by omega, by rw [htoNat]; exact hx, ?_, ?_, hstep, ?_⟩
  · intro h0
    have hc0 : c = 0 := by omega
    rw [hx, hc0]
    simp [widthBefore]
  · intro hpos hx0
    by_contra hne
    have hcpos : 0 < c := by omega
    have hitemsne : items ≠ [] := by
      intro hnil
      rw [hnil] at hlt
      simp at hlt
    have := widthBefore_pos items c hpos hcpos hitemsne
    omega
  · intro hacc
    subst hitems
    rcases Toolbar.onArrowDown_cases "right" t c hc hlt with h | ⟨_, hoff, hcl, h⟩ | ⟨h, _⟩
    · rw [h] at hacc
      simp [Outcome.ok] at hacc
    · rw [h]
      simp only [Outcome.ok]
      rw [Toolbar.onArrowDown_left_of_succ
        { t with x := t.x - t.items[c], currentIndex := (c : Int) + 1 } c hoff rfl hcl]
      cases t
      simp only [Outcome.ok] at hc ⊢
      simp [hc]
    · exact absurd h (by decide)

/-- C18, refuted as stated: with a first item of width 0 (and `offsetXSlider =
-5`), one arrow to the right leaves `currentIndex = 1` and `x = 0`, so `x = 0`
does not mean `currentIndex = 0`. -/
theorem zero_width_item_keeps_x_at_zero :
    hiddenItemToolbar.items ≠ [] ∧ hiddenItemToolbar.setUnits.offsetXSlider ≤ 0 ∧
    (Toolbar.arrows ["right"] hiddenItemToolbar.setUnits).x = 0 ∧
    (Toolbar.arrows ["right"] hiddenItemToolbar.setUnits).currentIndex = 1 := by
  decide

/-- C18, as the code has it: for a toolbar with at least one item, after
`setUnits()` and any sequence of arrow events, `0 ≤ currentIndex ≤
items.length - 1` and `x` is minus the sum of the widths of
`items[0 .. currentIndex - 1]`.  So `x = 0` when `currentIndex = 0`, and only
then if every item has a positive width; no `onArrowDown` reads `items` outside
its bounds; and a right arrow that is accepted, followed by a left arrow, gives
back the state before. -/
theorem toolbar_index_and_offset (t0 : Toolbar) (events : List String)
    (hne : t0.items ≠ []) :
    0 ≤ (Toolbar.arrows events t0.setUnits).currentIndex ∧
    (Toolbar.arrows events t0.setUnits).currentIndex ≤ (t0.items.length : Int) - 1 ∧
    (Toolbar.arrows events t0.setUnits).x =
      - widthBefore t0.items (Toolbar.arrows events t0.setUnits).currentIndex.toNat ∧
    ((Toolbar.arrows events t0.setUnits).currentIndex = 0 →
      (Toolbar.arrows events t0.setUnits).x = 0) ∧
    ((∀ w ∈ t0.items, 0 < w) → (Toolbar.arrows events t0.setUnits).x = 0 →
      (Toolbar.arrows events t0.setUnits).currentIndex = 0) ∧
    (∀ a, (Toolbar.onArrowDown a (Toolbar.arrows events t0.setUnits)).thrown = none) ∧
    ((Toolbar.onArrowDown "right" (Toolbar.arrows events t0.setUnits)).state.currentIndex =
        (Toolbar.arrows events t0.setUnits).currentIndex + 1 →
      (Toolbar.onArrowDown "left"
        (Toolbar.onArrowDown "right" (Toolbar.arrows events t0.setUnits)).state).state =
        Toolbar.arrows events t0.setUnits) :=
  Toolbar.inv_facts t0.items _
    (Toolbar.arrows_inv t0.items events _ (Toolbar.setUnits_inv t0 hne))

/-- C18, evaluated: three items of widths 40, 50 and 60; right, right, right
(refused at the last item), left. -/
theorem toolbar_index_and_offset_witness :
    demoToolbar.items ≠ [] ∧
    (Toolbar.arrows ["right", "right", "right", "left"] demoToolbar.setUnits).currentIndex = 1 ∧
    (Toolbar.arrows ["right", "right", "right", "left"] demoToolbar.setUnits).x = -40 ∧
    (Toolbar.arrows ["right", "right", "right", "left"] demoToolbar.setUnits).x =
      - widthBefore demoToolbar.items
        (Toolbar.arrows ["right", "right", "right", "left"] demoToolbar.setUnits).currentIndex.toNat :=
  ⟨by decide, by decide, by decide,
   (toolbar_index_and_offset demoToolbar ["right", "right", "right", "left"]
     (by decide)).2.2.1⟩

end SMTFE
